import Mathlib

/-!
Verification development for the DocuChat-AI ingestion-to-retrieval pipeline.

The definitions below are a shallow embedding of the JavaScript sources
(backend/utils/chunker.js, backend/utils/textExtractor.js,
backend/utils/freeEmbeddingService.js, backend/api/process.js).
JavaScript floating-point numbers are modelled as real numbers, JS strings as
Lean strings (the texts involved are ASCII, where the two agree), JS Maps as
association lists in insertion order, and JS regex splits as explicit
recursive splitters with the same semantics.
-/

namespace DocuChat

/-- JS whitespace class membership for the characters relevant here
(space, tab, newline, carriage return, vertical tab, form feed). -/
def jsWS (c : Char) : Bool :=
  c == ' ' || c == '\t' || c == '\n' || c == '\r' || c == Char.ofNat 11 || c == Char.ofNat 12

/-- Sentence-terminal marks used by the chunker and the chat sentence split. -/
def isMark (c : Char) : Bool :=
  c == '.' || c == '!' || c == '?'

/-- Core of a JS String.prototype.split on the regex consisting of one-or-more
repetitions of a character class p (such as the split on one-or-more whitespace
characters in estimateTokens, or on one-or-more terminal marks in the chat
route).  The state is an Option: some cur means a segment cur (reversed) is
being accumulated, none means a separator run is being consumed. -/
def jsSplitGo (p : Char → Bool) : List Char → Option (List Char) → List (List Char)
  | [], some cur => [cur.reverse]
  | [], none => [[]]
  | c :: rest, some cur =>
      if p c then cur.reverse :: jsSplitGo p rest none
      else jsSplitGo p rest (some (c :: cur))
  | c :: rest, none =>
      if p c then jsSplitGo p rest none
      else jsSplitGo p rest (some [c])

/-- JS split of string s on runs of characters satisfying p. -/
def jsSplit (p : Char → Bool) (s : String) : List String :=
  (jsSplitGo p s.data (some [])).map (fun l => String.mk l)

/-- The split on one-or-more whitespace characters used throughout the code. -/
def jsSplitWS (s : String) : List String :=
  jsSplit jsWS s

/-- The split on one-or-more terminal marks used by the chat route. -/
def jsSplitPunct (s : String) : List String :=
  jsSplit isMark s

/-- JS String.prototype.trim, modelled directly on the character list so that
it can be reasoned about (Lean core trim works on byte positions). -/
def jsTrim (s : String) : String :=
  String.mk (((s.data.dropWhile jsWS).reverse.dropWhile jsWS).reverse)

/-- JS String.prototype.toLowerCase, modelled on the character list (ASCII
case mapping agrees between JS and Lean). -/
def jsToLower (s : String) : String :=
  String.mk (s.data.map Char.toLower)

/-- Core of splitIntoSentences: JS split on the regex matching a whitespace
run immediately preceded by a terminal mark (lookbehind), so the mark stays
with the preceding segment and the whitespace run is the separator. -/
def sentGo : List Char → Option (List Char) → List (List Char)
  | [], some cur => [cur.reverse]
  | [], none => [[]]
  | c :: rest, some cur =>
      if jsWS c && (match cur with | p :: _ => isMark p | [] => false) then
        cur.reverse :: sentGo rest none
      else sentGo rest (some (c :: cur))
  | c :: rest, none =>
      if jsWS c then sentGo rest none
      else sentGo rest (some [c])

/-- chunker.js splitIntoSentences: split at terminal-mark-then-whitespace
boundaries, then drop sentences whose trim is empty. -/
def splitIntoSentences (text : String) : List String :=
  ((sentGo text.data (some [])).map (fun l => String.mk l)).filter
    (fun sentence => jsTrim sentence != "")

/-- chunker.js estimateTokens: Math.ceil(words * 0.75) on the length of the
whitespace split.  With words a natural number, ceil(words * 3 / 4) is
(3 * words + 3) / 4 in natural division (0.75 and words are float-exact). -/
def estimateTokens (text : String) : Nat :=
  (3 * (jsSplitWS text).length + 3) / 4

/-- JS Array.prototype.join(sep). -/
def joinSep (sep : String) : List String → String
  | [] => ""
  | [s] => s
  | s :: rest => s ++ sep ++ joinSep sep rest

/-- Join with a single space, as in currentChunk.join(' '). -/
def joinSp (l : List String) : String :=
  joinSep " " l

/-- Sum of per-sentence token estimates. -/
def tokSum (l : List String) : Nat :=
  (l.map estimateTokens).sum

/-- Backward walk of chunker.js lines 254-267: starting from the end of the
just-closed chunk, accumulate whole sentence units while the cumulative token
estimate stays within overlapTokens, stopping at the first unit that would
exceed it.  Input is the reversed chunk; returns the overlap units in original
order together with their cumulative token count. -/
def overlapGo (overlapTokens : Nat) : List String → List String → Nat → List String × Nat
  | [], acc, accTok => (acc, accTok)
  | s :: rest, acc, accTok =>
      let t := estimateTokens s
      if accTok + t ≤ overlapTokens then overlapGo overlapTokens rest (s :: acc) (accTok + t)
      else (acc, accTok)

/-- The overlap suffix seeded into a new chunk after closing chunk cur. -/
def overlapSuffix (cur : List String) (overlapTokens : Nat) : List String :=
  (overlapGo overlapTokens cur.reverse [] 0).1

/-- A chunk as produced by chunkText (text, tokenCount, sentenceCount,
chunkIndex). -/
structure RawChunk where
  text : String
  tokenCount : Nat
  sentenceCount : Nat
  chunkIndex : Nat
deriving DecidableEq, Repr

/-- Main loop of chunkText: walk the sentence list, accumulating sentences in
currentChunk; when adding the next sentence would exceed maxTokens and the
working chunk is non-empty, emit the working chunk (if its joined text is
non-empty after trim) and seed the next one with the overlap suffix plus the
triggering sentence; finally flush the trailing chunk. -/
def chunkLoop (maxTokens overlapTokens : Nat) :
    List String → List String → Nat → List RawChunk → List RawChunk
  | [], cur, curTok, chunks =>
      if cur ≠ [] then
        if jsTrim (joinSp cur) != "" then
          chunks ++ [⟨jsTrim (joinSp cur), curTok, cur.length, chunks.length⟩]
        else chunks
      else chunks
  | s :: rest, cur, curTok, chunks =>
      if curTok + estimateTokens s > maxTokens ∧ cur ≠ [] then
        chunkLoop maxTokens overlapTokens rest
          ((overlapGo overlapTokens cur.reverse [] 0).1 ++ [s])
          ((overlapGo overlapTokens cur.reverse [] 0).2 + estimateTokens s)
          (if jsTrim (joinSp cur) != "" then
            chunks ++ [⟨jsTrim (joinSp cur), curTok, cur.length, chunks.length⟩]
          else chunks)
      else
        chunkLoop maxTokens overlapTokens rest (cur ++ [s]) (curTok + estimateTokens s) chunks

/-- chunker.js chunkText(text, maxTokens = 400, overlapTokens = 50). -/
def chunkText (text : String) (maxTokens : Nat := 400) (overlapTokens : Nat := 50) :
    List RawChunk :=
  chunkLoop maxTokens overlapTokens (splitIntoSentences text) [] 0 []

/-- The same loop as chunkLoop, recording each emitted chunk as its list of
sentence units instead of the built record; used to state properties about
the sentence composition of consecutive chunks. -/
def chunkUnitsLoop (maxTokens overlapTokens : Nat) :
    List String → List String → Nat → List (List String) → List (List String)
  | [], cur, _, chunks =>
      if cur ≠ [] then
        if jsTrim (joinSp cur) != "" then chunks ++ [cur] else chunks
      else chunks
  | s :: rest, cur, curTok, chunks =>
      if curTok + estimateTokens s > maxTokens ∧ cur ≠ [] then
        chunkUnitsLoop maxTokens overlapTokens rest
          ((overlapGo overlapTokens cur.reverse [] 0).1 ++ [s])
          ((overlapGo overlapTokens cur.reverse [] 0).2 + estimateTokens s)
          (if jsTrim (joinSp cur) != "" then chunks ++ [cur] else chunks)
      else
        chunkUnitsLoop maxTokens overlapTokens rest (cur ++ [s]) (curTok + estimateTokens s) chunks

/-- The chunks of a text as lists of sentence units. -/
def chunkUnits (text : String) (maxTokens overlapTokens : Nat) : List (List String) :=
  chunkUnitsLoop maxTokens overlapTokens (splitIntoSentences text) [] 0 []

/-- Document metadata supplied to addMetadataToChunks (fileName, fileType and
the extraction metadata spread). -/
structure DocMeta where
  fileName : String
  fileType : String
deriving DecidableEq, Repr

/-- Per-chunk metadata object built by addMetadataToChunks. -/
structure ChunkMeta where
  fileName : String
  fileType : String
  chunkIndex : Nat
  totalChunks : Nat
  isFirstChunk : Bool
  isLastChunk : Bool
deriving DecidableEq, Repr

/-- A chunk after the metadata post-pass: the RawChunk fields are spread at
top level, plus id, documentId, the metadata object and createdAt (the clock
is passed explicitly as now). -/
structure ChunkWithMeta where
  id : String
  documentId : String
  text : String
  tokenCount : Nat
  sentenceCount : Nat
  chunkIndex : Nat
  metadata : ChunkMeta
  createdAt : String
deriving DecidableEq, Repr

/-- The record built by addMetadataToChunks for one chunk at positional
index. -/
def mkChunkMeta (documentId : String) (meta : DocMeta) (total : Nat) (now : String)
    (index : Nat) (chunk : RawChunk) : ChunkWithMeta :=
  { id := documentId ++ "_chunk_" ++ toString index
    documentId := documentId
    text := chunk.text
    tokenCount := chunk.tokenCount
    sentenceCount := chunk.sentenceCount
    chunkIndex := chunk.chunkIndex
    metadata :=
      { fileName := meta.fileName
        fileType := meta.fileType
        chunkIndex := index
        totalChunks := total
        isFirstChunk := index == 0
        isLastChunk := index == total - 1 }
    createdAt := now }

/-- Recursive worker for addMetadataToChunks carrying the positional index. -/
def addMetaGo (documentId : String) (meta : DocMeta) (total : Nat) (now : String) :
    Nat → List RawChunk → List ChunkWithMeta
  | _, [] => []
  | index, chunk :: rest =>
      mkChunkMeta documentId meta total now index chunk ::
        addMetaGo documentId meta total now (index + 1) rest

/-- chunker.js addMetadataToChunks(chunks, documentId, documentMetadata). -/
def addMetadataToChunks (chunks : List RawChunk) (documentId : String) (meta : DocMeta)
    (now : String) : List ChunkWithMeta :=
  addMetaGo documentId meta chunks.length now 0 chunks

/-- Specification-side word count: the number of maximal non-empty runs of
non-whitespace characters (the whitespace-separated words of the spec). -/
def countWordsGo : Bool → List Char → Nat
  | _, [] => 0
  | inWord, c :: rest =>
      if jsWS c then countWordsGo false rest
      else (if inWord then 0 else 1) + countWordsGo true rest

/-- Specification-side word count of a string. -/
def wordCountSpec (s : String) : Nat :=
  countWordsGo false s.data

/-- Specification-side token estimate: ceil(n * 0.75) as stated in the spec,
written with the rational ceiling. -/
def specCeil (n : Nat) : Nat :=
  ⌈(n : ℚ) * (3 / 4 : ℚ)⌉₊

/-- Extra empty segment contributed to the JS whitespace split by a leading
whitespace character (or by the empty string). -/
def leadAdj (s : String) : Nat :=
  match s.data with
  | [] => 1
  | c :: _ => if jsWS c then 1 else 0

/-- Extra empty segment contributed to the JS whitespace split by a trailing
whitespace character. -/
def trailAdj (s : String) : Nat :=
  match s.data.getLast? with
  | none => 0
  | some c => if jsWS c then 1 else 0

/-! ## Vector store (freeEmbeddingService.js, InMemoryVectorStore)

JS float vectors are modelled as lists of real numbers. -/

/-- Sum of squares of a vector, as accumulated by the normA and normB loops. -/
def sumSq (l : List ℝ) : ℝ :=
  (l.map (fun v => v * v)).sum

/-- Dot product loop of cosineSimilarity (pairwise products; the code only
reaches it when the lengths agree). -/
def dotList (a b : List ℝ) : ℝ :=
  ((a.zip b).map (fun p => p.1 * p.2)).sum

/-- InMemoryVectorStore.cosineSimilarity: 0 on length mismatch, else
dot / (sqrt normA * sqrt normB), or 0 when that magnitude is not positive. -/
noncomputable def cosineSimilarity (a b : List ℝ) : ℝ :=
  if a.length ≠ b.length then 0
  else
    let magnitude := Real.sqrt (sumSq a) * Real.sqrt (sumSq b)
    if magnitude > 0 then dotList a b / magnitude else 0

/-- The Euclidean norm written as the spec writes it. -/
noncomputable def normL2 (a : List ℝ) : ℝ :=
  Real.sqrt (sumSq a)

/-- Metadata attached to a stored embedding record (assembled in
generateEmbeddingsForChunks).  The source also stores wordCount, which is
undefined there because chunks carry no wordCount field. -/
structure VecMetadata where
  text : String
  documentId : String
  fileName : String
  fileType : String
  chunkIndex : Nat
  totalChunks : Nat
  tokenCount : Nat
  wordCount : Option Nat
  createdAt : String

/-- Placeholder metadata used only to type the projection out of an Option. -/
def mdefault : VecMetadata :=
  ⟨"", "", "", "", 0, 0, 0, none, ""⟩

/-- Dynamic metadata[key] lookup, for the string-valued keys the repository
filters on; an unknown key behaves like JS undefined (none). -/
def metaGet (m : VecMetadata) (key : String) : Option String :=
  if key == "documentId" then some m.documentId
  else if key == "fileName" then some m.fileName
  else if key == "fileType" then some m.fileType
  else none

/-- A record held by the in-memory vector store. -/
structure StoredVector where
  id : String
  values : List ℝ
  metadata : VecMetadata

/-- The in-memory vector store: a JS Map in insertion order. -/
structure VectorStore where
  vectors : List StoredVector

/-- A filter is the list of key/value equality constraints of the JS filter
object; a record passes when every constraint matches its metadata. -/
def passesFilter (constraints : List (String × String)) (m : VecMetadata) : Bool :=
  constraints.all (fun kv => metaGet m kv.1 == some kv.2)

/-- A query match: id, similarity score, metadata when requested. -/
structure QueryMatch where
  id : String
  score : ℝ
  metadata : Option VecMetadata

/-- Total projection of the optional metadata (the chat route reads it under
includeMetadata = true, where it is always present). -/
def metaOf (r : QueryMatch) : VecMetadata :=
  r.metadata.getD mdefault

/-- Stable insertion into a list sorted by descending score: the new element
(originally earlier) goes before the first strictly-smaller or equal score it
can, matching the JS stable sort with comparator (a, b) => b.score - a.score. -/
noncomputable def insertDesc (x : QueryMatch) : List QueryMatch → List QueryMatch
  | [] => [x]
  | y :: ys => if y.score ≤ x.score then x :: y :: ys else y :: insertDesc x ys

/-- Stable sort by descending score (results.sort((a, b) => b.score - a.score)). -/
noncomputable def sortByScoreDesc : List QueryMatch → List QueryMatch
  | [] => []
  | x :: xs => insertDesc x (sortByScoreDesc xs)

/-- InMemoryVectorStore.query: filter by metadata constraints, score every
remaining record by cosine similarity against the query vector in insertion
order, sort by descending score and keep the top K. -/
noncomputable def query (store : VectorStore) (vector : List ℝ) (topK : Nat)
    (includeMetadata : Bool) (filter : List (String × String)) : List QueryMatch :=
  let results := store.vectors.filterMap (fun sv =>
    if passesFilter filter sv.metadata then
      some ⟨sv.id, cosineSimilarity vector sv.values,
            if includeMetadata then some sv.metadata else none⟩
    else none)
  (sortByScoreDesc results).take topK

/-- The match.score >= threshold filter of searchSimilarChunks. -/
noncomputable def filterByThreshold (threshold : ℝ) : List QueryMatch → List QueryMatch
  | [] => []
  | m :: ms =>
      if threshold ≤ m.score then m :: filterByThreshold threshold ms
      else filterByThreshold threshold ms

/-- Argument object of InMemoryVectorStore.deleteMany: an optional filter
member (Object.entries(filter.filter || {})) and the deleteAll marker used by
clearAllEmbeddings (which carries no filter member). -/
structure DeleteArg where
  filter : Option (List (String × String))
  deleteAll : Bool

/-- Deletion loop of deleteMany: a record is deleted when it matches every
constraint of the filter member (an absent or empty filter deletes all);
returns the deleted count and the remaining records. -/
def deleteManyGo (constraints : List (String × String)) :
    List StoredVector → Nat × List StoredVector
  | [] => (0, [])
  | sv :: rest =>
      let r := deleteManyGo constraints rest
      if passesFilter constraints sv.metadata then (r.1 + 1, r.2)
      else (r.1, sv :: r.2)

/-- InMemoryVectorStore.deleteMany. -/
def deleteMany (store : VectorStore) (arg : DeleteArg) : Nat × VectorStore :=
  let r := deleteManyGo (arg.filter.getD []) store.vectors
  (r.1, ⟨r.2⟩)

/-! ## Development embedding service (hash-based text-to-vector) -/

/-- vector[i] += x with JS semantics (every index used is below the length). -/
def addAt (l : List ℝ) (i : Nat) (x : ℝ) : List ℝ :=
  l.set i (l.getD i 0 + x)

/-- Inner loop of textToVector for one word at word index idx: for each
character position i, add sin(charCode + idx) * 0.1 at slot
(charCode + idx * i) mod dims. -/
noncomputable def applyWord (dims : Nat) (idx : Nat) (w : List Char) (vec : List ℝ) : List ℝ :=
  w.enum.foldl (fun v p =>
    addAt v ((p.2.toNat + idx * p.1) % dims) (Real.sin ((p.2.toNat : ℝ) + (idx : ℝ)) * 0.1)) vec

/-- InMemoryVectorStore.textToVector: lowercase, split on whitespace, hash
every word into a dims-slot accumulator, then L2-normalize unless the
magnitude is zero. -/
noncomputable def textToVector (text : String) (dims : Nat := 1536) : List ℝ :=
  let words := jsSplitWS (jsToLower text)
  let raw := (words.enum).foldl (fun v p => applyWord dims p.1 p.2.data v)
    (List.replicate dims (0 : ℝ))
  let magnitude := Real.sqrt (sumSq raw)
  if magnitude > 0 then raw.map (fun val => val / magnitude) else raw

/-- JS x || d for an optional numeric option (0 is falsy and falls back). -/
def jsOrNat (o : Option Nat) (d : Nat) : Nat :=
  match o with
  | some n => if n = 0 then d else n
  | none => d

/-- JS x || d for an optional real option (0 is falsy and falls back). -/
noncomputable def jsOrReal (o : Option ℝ) (d : ℝ) : ℝ :=
  match o with
  | some x => if x = 0 then d else x
  | none => d

/-- Options object of DevelopmentEmbeddingService.searchSimilarChunks. -/
structure SearchOptions where
  topK : Option Nat
  documentId : Option String
  threshold : Option ℝ

/-- The filter built by searchSimilarChunks: {documentId} when the option is
truthy (a missing or empty documentId string gives no constraint). -/
def docFilter (documentId : Option String) : List (String × String) :=
  match documentId with
  | some d => if d = "" then [] else [("documentId", d)]
  | none => []

/-- Result of searchSimilarChunks. -/
structure SearchResult where
  queryText : String
  results : List QueryMatch
  totalFound : Nat
  aboveThreshold : Nat
  queryTokens : Nat

/-- DevelopmentEmbeddingService.searchSimilarChunks: embed the query text,
query the store with topK (defaulted through ||), includeMetadata and the
documentId filter, then keep matches at or above the threshold (defaulted
through ||). -/
noncomputable def searchSimilarChunks (store : VectorStore) (queryText : String)
    (options : SearchOptions) : SearchResult :=
  let queryEmbedding := textToVector queryText
  let found := query store queryEmbedding (jsOrNat options.topK 5) true
    (docFilter options.documentId)
  let filtered := filterByThreshold (jsOrReal options.threshold 0.5) found
  { queryText := queryText
    results := filtered
    totalFound := found.length
    aboveThreshold := filtered.length
    queryTokens := (jsSplitWS queryText).length }

/-! ## Answer synthesizer (process.js generateContextualResponse) -/

/-- Scan for an occurrence of w starting at any position of the list. -/
def inclGo (w : List Char) : List Char → Bool
  | [] => List.isPrefixOf w []
  | c :: rest => List.isPrefixOf w (c :: rest) || inclGo w rest

/-- JS String.prototype.includes (substring containment). -/
def jsIncludes (s sub : String) : Bool :=
  inclGo sub.data s.data

/-- A context chunk assembled by the chat route from a query match. -/
structure ContextChunk where
  id : String
  text : String
  source : String
  chunkIndex : Nat
  similarity : ℝ

/-- The candidate sentences of generateContextualResponse: split the combined
context on runs of terminal marks, trim, keep sentences strictly longer than
20 characters, cap at the first 15. -/
def candidateSentences (combinedContext : String) : List String :=
  ((((jsSplitPunct combinedContext).map jsTrim).filter
    (fun s => 20 < s.length)).take 15)

/-- Worker for the test of the regex matching one-or-more digits then a dot or
closing parenthesis then a whitespace, applied after the leading digit. -/
def afterDigits : List Char → Bool
  | [] => false
  | c :: rest =>
      if c.isDigit then afterDigits rest
      else (c == '.' || c == ')') && (match rest with | d :: _ => jsWS d | [] => false)

/-- Anchored test of the numbered-item regex on a string. -/
def startsNumbered (s : String) : Bool :=
  match s.data with
  | [] => false
  | c :: rest => c.isDigit && afterDigits rest

/-- JS word character class (letters, digits, underscore). -/
def jsWordChar (c : Char) : Bool :=
  c.isAlphanum || c == '_'

/-- Whether the remaining text starts with w at a word boundary on both sides,
given the previous character. -/
def boundaryHere (w : List Char) (prev : Option Char) (l : List Char) : Bool :=
  (match prev with | none => true | some c => !jsWordChar c)
    && List.isPrefixOf w l
    && (match List.drop w.length l with | [] => true | c :: _ => !jsWordChar c)

/-- Scan for a word-boundary-delimited occurrence of w. -/
def scanBounded (w : List Char) : Option Char → List Char → Bool
  | prev, [] => boundaryHere w prev []
  | prev, c :: rest => boundaryHere w prev (c :: rest) || scanBounded w (some c) rest

/-- Test of a word-boundary regex for a single word against a string. -/
def testWordRe (w : String) (s : String) : Bool :=
  scanBounded w.data none s.data

/-- Test of the ordering-adverb alternation in buildHowResponse. -/
def containsOrderWord (s : String) : Bool :=
  testWordRe "first" s || testWordRe "then" s || testWordRe "next" s
    || testWordRe "finally" s || testWordRe "after" s

/-- process.js buildOverviewResponse. -/
def buildOverviewResponse (sentences : List String) : String :=
  let overviewSentences := sentences.filter (fun s =>
    let lower := jsToLower s
    jsIncludes lower "overview" || jsIncludes lower "introduction"
      || jsIncludes lower "document" || jsIncludes lower "project"
      || jsIncludes lower "system" || jsIncludes lower "assignment"
      || jsIncludes lower "implements" || jsIncludes lower "designed")
  if overviewSentences.length > 0 then
    "Based on your documents:\n\n" ++ joinSep ". " (overviewSentences.take 3) ++ "."
  else
    "Based on your documents:\n\n" ++ joinSep ". " (sentences.take 3) ++ "."

/-- process.js buildListResponse (a sentence can be pushed by both checks). -/
def buildListResponse (sentences : List String) : String :=
  let listItems := sentences.foldl (fun acc sentence =>
    let acc :=
      if startsNumbered (jsTrim sentence) || jsIncludes sentence "first"
          || jsIncludes sentence "second" then
        acc ++ [sentence]
      else acc
    if jsIncludes sentence "include" || jsIncludes sentence "contains"
        || jsIncludes sentence "consists" then
      acc ++ [sentence]
    else acc) []
  if listItems.length > 0 then
    "Based on your documents:\n\n" ++ joinSep "\n\n" (listItems.take 5)
  else
    "Based on your documents:\n\n" ++ joinSep "\n\n" (sentences.take 4)

/-- process.js buildHowResponse. -/
def buildHowResponse (sentences : List String) : String :=
  let howSentences := sentences.filter (fun s =>
    let lower := jsToLower s
    jsIncludes lower "step" || jsIncludes lower "process" || jsIncludes lower "method"
      || jsIncludes lower "procedure" || jsIncludes lower "implement"
      || jsIncludes lower "create" || jsIncludes lower "build"
      || jsIncludes lower "setup" || containsOrderWord lower)
  if howSentences.length > 0 then
    "Based on your documents:\n\n" ++ joinSep "\n\n" (howSentences.take 4)
  else
    let instructionalSentences := sentences.filter (fun s =>
      jsIncludes s "must" || jsIncludes s "should" || jsIncludes s "need to"
        || jsIncludes s "required")
    if instructionalSentences.length > 0 then
      "Based on your documents:\n\n" ++ joinSep "\n\n" (instructionalSentences.take 3)
    else
      "Based on your documents:\n\n" ++ joinSep "\n\n" (sentences.take 3)

/-- process.js buildWhyResponse. -/
def buildWhyResponse (sentences : List String) : String :=
  let whySentences := sentences.filter (fun s =>
    let lower := jsToLower s
    jsIncludes lower "because" || jsIncludes lower "since" || jsIncludes lower "reason"
      || jsIncludes lower "purpose" || jsIncludes lower "goal"
      || jsIncludes lower "objective" || jsIncludes lower "due to"
      || jsIncludes lower "in order to")
  if whySentences.length > 0 then
    "According to your documents:\n\n" ++ joinSep "\n\n" (whySentences.take 3)
  else
    "According to your documents:\n\n" ++ joinSep "\n\n" (sentences.take 3)

/-- process.js buildWhenWhereResponse. -/
def buildWhenWhereResponse (sentences : List String) (questionLower : String) : String :=
  let isWhen := jsIncludes questionLower "when"
  let isWhere := jsIncludes questionLower "where"
  let relevantSentences := sentences.filter (fun s =>
    let lower := jsToLower s
    if isWhen then
      jsIncludes lower "time" || jsIncludes lower "date" || jsIncludes lower "when"
        || jsIncludes lower "during" || jsIncludes lower "before"
        || jsIncludes lower "after"
    else if isWhere then
      jsIncludes lower "location" || jsIncludes lower "directory"
        || jsIncludes lower "path" || jsIncludes lower "where"
        || jsIncludes lower "environment" || jsIncludes lower "system"
    else false)
  if relevantSentences.length > 0 then
    "Based on your documents:\n\n" ++ joinSep "\n\n" (relevantSentences.take 3)
  else
    "Based on your documents:\n\n" ++ joinSep "\n\n" (sentences.take 3)

/-- process.js buildGeneralResponse. -/
def buildGeneralResponse (question : String) (sentences : List String) : String :=
  let questionWords := (jsSplitWS (jsToLower question)).filter (fun word =>
    3 < word.length
      && !(["what", "how", "why", "when", "where", "does", "this"].contains word))
  let relevantSentences := sentences.filter (fun s =>
    let lower := jsToLower s
    questionWords.any (fun word => jsIncludes lower word))
  if relevantSentences.length > 0 then
    "Based on your documents:\n\n" ++ joinSep "\n\n" (relevantSentences.take 4)
  else
    "Based on your documents:\n\n" ++ joinSep "\n\n" (sentences.take 3)

/-- process.js buildFallbackResponse. -/
def buildFallbackResponse (sentences : List String) : String :=
  if sentences.length = 0 then
    "I found some information in your documents, but couldn't extract a clear answer to your question."
  else
    "Based on your documents:\n\n" ++ joinSep "\n\n" (sentences.take 2)

/-- process.js generateContextualResponse: classify the question by cascading
keyword checks and build a templated answer from the candidate sentences. -/
def generateContextualResponse (question : String) (contextChunks : List ContextChunk) :
    String :=
  if contextChunks.length = 0 then
    "I couldn't find relevant information in your documents to answer this question."
  else
    let questionLower := jsTrim (jsToLower question)
    let combinedContext := joinSp (contextChunks.map (fun chunk => chunk.text))
    let sentences := candidateSentences combinedContext
    let isWhatQuestion := jsIncludes questionLower "what"
    let isHowQuestion := jsIncludes questionLower "how"
    let isWhyQuestion := jsIncludes questionLower "why"
    let isOverviewQuestion := jsIncludes questionLower "about"
      || jsIncludes questionLower "overview" || jsIncludes questionLower "summary"
    let isWhenQuestion := jsIncludes questionLower "when"
    let isWhereQuestion := jsIncludes questionLower "where"
    let isListQuestion := jsIncludes questionLower "list"
      || jsIncludes questionLower "what are"
    let response :=
      if isOverviewQuestion
          || (isWhatQuestion
              && (jsIncludes questionLower "document" || jsIncludes questionLower "project")) then
        buildOverviewResponse sentences
      else if isListQuestion then buildListResponse sentences
      else if isHowQuestion then buildHowResponse sentences
      else if isWhyQuestion then buildWhyResponse sentences
      else if isWhenQuestion || isWhereQuestion then
        buildWhenWhereResponse sentences questionLower
      else buildGeneralResponse question sentences
    if jsTrim response = "" then jsTrim (buildFallbackResponse sentences)
    else jsTrim response

/-! ## Orchestrator state and routes (process.js) -/

/-- A Document Job as registered by the processing route. -/
structure Job where
  documentId : String
  fileName : String
  fileType : String
  s3Key : String
  status : String
  startedAt : String
  progress : String
deriving DecidableEq, Repr

/-- Association-list lookup modelling Map.prototype.get. -/
def lookupAssoc {α : Type} (l : List (String × α)) (k : String) : Option α :=
  (l.find? (fun p => p.1 == k)).map Prod.snd

/-- Association-list update modelling Map.prototype.set (replace in place,
else append). -/
def setAssoc {α : Type} (l : List (String × α)) (k : String) (v : α) :
    List (String × α) :=
  if (l.find? (fun p => p.1 == k)).isSome then
    l.map (fun p => if p.1 == k then (k, v) else p)
  else l ++ [(k, v)]

/-- Association-list removal modelling Map.prototype.delete. -/
def eraseAssoc {α : Type} (l : List (String × α)) (k : String) :
    List (String × α) :=
  l.filter (fun p => p.1 != k)

/-- The shared mutable state of process.js: the Job registry, the chunk table
and the vector store. -/
structure AppState where
  docs : List (String × Job)
  chunks : List (String × List ChunkWithMeta)
  store : VectorStore

/-- Outcome of the POST /process/:documentId handler up to its response. -/
inductive ProcessResult where
  | badRequest
  | conflict (document : Job)
  | started (document : Job)
deriving DecidableEq, Repr

/-- The Job created by the processing route before the background task runs. -/
def processingJob (documentId fileName fileType s3Key now : String) : Job :=
  { documentId := documentId
    fileName := fileName
    fileType := fileType
    s3Key := s3Key
    status := "processing"
    startedAt := now
    progress := "Initializing..." }

/-- POST /process/:documentId (process.js lines 379-416): validate the body,
reject with 409 when a Job for the documentId is already processing, else
register a fresh processing Job and return its snapshot; the clock is passed
explicitly as now.  Returns the response and the updated Job registry. -/
def processRequest (docs : List (String × Job))
    (documentId fileName fileType s3Key now : String) :
    ProcessResult × List (String × Job) :=
  if fileName = "" ∨ fileType = "" ∨ s3Key = "" then (.badRequest, docs)
  else
    match lookupAssoc docs documentId with
    | some existingDoc =>
        if existingDoc.status = "processing" then (.conflict existingDoc, docs)
        else
          (.started (processingJob documentId fileName fileType s3Key now),
           setAssoc docs documentId (processingJob documentId fileName fileType s3Key now))
    | none =>
        (.started (processingJob documentId fileName fileType s3Key now),
         setAssoc docs documentId (processingJob documentId fileName fileType s3Key now))

/-- A sources entry of the chat response ({source: fileName}). -/
structure SourceRef where
  source : String
deriving DecidableEq, Repr

/-- Successful JSON body of POST /process/chat. -/
structure ChatOk where
  message : String
  answer : String
  sources : List SourceRef
  relevantChunks : Nat

/-- Outcome of the POST /process/chat handler. -/
inductive ChatResult where
  | badRequest
  | ok (body : ChatOk)

/-- The fixed no-processed-documents answer. -/
def noDocsAnswer : String :=
  "I don't have any processed documents to search through yet. Please upload and process some documents first, then try asking your question again."

/-- The fixed couldn't-find-relevant-information answer. -/
def noInfoAnswer : String :=
  "I couldn't find any relevant information in your documents to answer that question. Try asking about topics that are covered in your uploaded documents, or try rephrasing your question."

/-- The context chunks assembled from the retrieved matches. -/
def contextOf (results : List QueryMatch) : List ContextChunk :=
  results.map (fun result =>
    { id := result.id
      text := (metaOf result).text
      source := (metaOf result).fileName
      chunkIndex := (metaOf result).chunkIndex
      similarity := result.score })

/-- POST /process/chat (process.js lines 36-113): reject empty messages,
short-circuit when no completed Job exists, search at threshold 0.15, retry
once at 0.05 when nothing passes, and otherwise build the answer, the
per-chunk sources list and the relevant chunk count. -/
noncomputable def chat (st : AppState) (message : String) (documentId : Option String)
    (maxChunks : Nat) : ChatResult :=
  if jsTrim message = "" then .badRequest
  else
    let completedDocs := (st.docs.map Prod.snd).filter (fun doc => doc.status == "completed")
    if completedDocs.length = 0 then
      .ok ⟨message, noDocsAnswer, [], 0⟩
    else
      let searchResult := searchSimilarChunks st.store message
        ⟨some maxChunks, documentId, some 0.15⟩
      let results :=
        if searchResult.results.length = 0 then
          (searchSimilarChunks st.store message
            ⟨some maxChunks, documentId, some 0.05⟩).results
        else searchResult.results
      if results.length = 0 then
        .ok ⟨message, noInfoAnswer, [], 0⟩
      else
        let contextChunks := contextOf results
        .ok ⟨message, generateContextualResponse message contextChunks,
             contextChunks.map (fun chunk => ⟨chunk.source⟩), results.length⟩

/-- Result object of DevelopmentEmbeddingService.deleteDocumentEmbeddings. -/
structure DeleteDocResult where
  success : Bool
  deletedCount : Nat
  documentId : String
deriving DecidableEq, Repr

/-- DevelopmentEmbeddingService.deleteDocumentEmbeddings: deleteMany with the
documentId equality filter. -/
def deleteDocumentEmbeddings (store : VectorStore) (documentId : String) :
    DeleteDocResult × VectorStore :=
  let r := deleteMany store ⟨some [("documentId", documentId)], false⟩
  (⟨true, r.1, documentId⟩, r.2)

/-- Result object of DevelopmentEmbeddingService.clearAllEmbeddings; the JS
deletedCount || 'all' is modelled as an Option (none stands for 'all'). -/
structure ClearAllResult where
  success : Bool
  deletedCount : Option Nat
deriving DecidableEq, Repr

/-- DevelopmentEmbeddingService.clearAllEmbeddings: deleteMany with the
{deleteAll: true} argument, which carries no filter member. -/
def clearAllEmbeddings (store : VectorStore) : ClearAllResult × VectorStore :=
  let r := deleteMany store ⟨none, true⟩
  (⟨true, if r.1 = 0 then none else some r.1⟩, r.2)

/-- Deletion summary returned by DELETE /process/:documentId. -/
structure DeletionSummary where
  documentId : String
  fileName : String
  clearedProcessedDocuments : Bool
  clearedDocumentChunks : Bool
  clearedEmbeddings : Bool
  remainingDocs : Nat
  remainingChunks : Nat
deriving DecidableEq, Repr

/-- DELETE /process/:documentId (process.js lines 580-627): remove the Job
and its chunks, best-effort delete the embeddings (the development deleteMany
is total, so the cleared flag is true), and report the summary. -/
def deleteDocument (st : AppState) (documentId : String) : DeletionSummary × AppState :=
  let processedDoc := lookupAssoc st.docs documentId
  let fileName :=
    match processedDoc with
    | some doc => if doc.fileName = "" then "Unknown Document" else doc.fileName
    | none => "Unknown Document"
  let hadProcessedDoc := (lookupAssoc st.docs documentId).isSome
  let docs' := eraseAssoc st.docs documentId
  let hadChunks := (lookupAssoc st.chunks documentId).isSome
  let chunks' := eraseAssoc st.chunks documentId
  let del := deleteDocumentEmbeddings st.store documentId
  let embeddingsCleared := true
  (⟨documentId, fileName, hadProcessedDoc, hadChunks, embeddingsCleared,
    docs'.length, chunks'.length⟩,
   ⟨docs', chunks', del.2⟩)

/-- Last-character separator indicator on character lists. -/
def endsSepL (l : List Char) : Nat :=
  match l.getLast? with
  | none => 0
  | some c => if jsWS c then 1 else 0

/-- Modelled from the claim's words: split the combined context by the same
rule as the chunker (a terminal mark followed by whitespace), discard every
sentence under 20 characters (20 or more kept), keep the first 15. -/
def candidateSentencesClaimed (combinedContext : String) : List String :=
  ((splitIntoSentences combinedContext).filter (fun s => 20 ≤ s.length)).take 15

/-- A completed Job used in concrete chat scenarios. -/
def completedJobW : Job :=
  ⟨"d", "f.txt", "text/plain", "k", "completed", "t0", "Completed"⟩

/-- Metadata of the first stored chunk in the concrete chat scenarios. -/
def metaW : VecMetadata :=
  ⟨"chunk text one", "d", "f.txt", "text/plain", 0, 2, 2, none, "t0"⟩

/-- Metadata of the second stored chunk (same originating fileName). -/
def metaW2 : VecMetadata :=
  ⟨"chunk text two", "d", "f.txt", "text/plain", 1, 2, 2, none, "t0"⟩

/-- A store holding one record whose vector is the embedding of "a". -/
noncomputable def ceStoreOne : VectorStore :=
  ⟨[⟨"c1", textToVector "a", metaW⟩]⟩

/-- A store holding two records embedding "a", sharing the fileName. -/
noncomputable def ceStoreTwo : VectorStore :=
  ⟨[⟨"c1", textToVector "a", metaW⟩, ⟨"c2", textToVector "a", metaW2⟩]⟩

/-- App state with one completed Job and the one-record store. -/
noncomputable def ceStateOne : AppState :=
  ⟨[("d", completedJobW)], [], ceStoreOne⟩

/-- App state with one completed Job and the two-record store. -/
noncomputable def ceStateTwo : AppState :=
  ⟨[("d", completedJobW)], [], ceStoreTwo⟩

/-! ## Association-list lemmas -/

theorem lookupAssoc_cons {α : Type} (p : String × α) (l : List (String × α)) (k : String) :
    lookupAssoc (p :: l) k = if p.1 = k then some p.2 else lookupAssoc l k := by
  by_cases h : p.1 = k
  · simp [lookupAssoc, List.find?_cons, h]
  · simp [lookupAssoc, List.find?_cons, h]

theorem lookupAssoc_mem {α : Type} {l : List (String × α)} {k : String} {v : α}
    (h : lookupAssoc l k = some v) : k ∈ l.map Prod.fst := by
  induction l with
  | nil => simp [lookupAssoc] at h
  | cons p rest ih =>
      rw [lookupAssoc_cons] at h
      by_cases hp : p.1 = k
      · simp [hp]
      · simp only [if_neg hp] at h
        simp [ih h]

theorem not_mem_keys_of_lookup_none {α : Type} {l : List (String × α)} {k : String}
    (h : lookupAssoc l k = none) : k ∉ l.map Prod.fst := by
  induction l with
  | nil => simp
  | cons p rest ih =>
      rw [lookupAssoc_cons] at h
      by_cases hp : p.1 = k
      · simp [hp] at h
      · simp only [if_neg hp] at h
        simp only [List.map_cons, List.mem_cons]
        rintro (rfl | hmem)
        · exact hp rfl
        · exact ih h hmem

theorem setAssoc_of_lookup_none {α : Type} {l : List (String × α)} {k : String}
    (h : lookupAssoc l k = none) (v : α) : setAssoc l k v = l ++ [(k, v)] := by
  have hf : l.find? (fun p => p.1 == k) = none := by
    unfold lookupAssoc at h
    exact Option.map_eq_none.mp h
  simp [setAssoc, hf]

theorem find?_isSome_of_lookup_some {α : Type} {l : List (String × α)} {k : String} {v : α}
    (h : lookupAssoc l k = some v) : (l.find? (fun p => p.1 == k)).isSome := by
  unfold lookupAssoc at h
  rcases Option.map_eq_some'.mp h with ⟨p, hp, _⟩
  simp [hp]

theorem keys_setAssoc_of_lookup_some {α : Type} {l : List (String × α)} {k : String} {v₀ : α}
    (h : lookupAssoc l k = some v₀) (v : α) :
    (setAssoc l k v).map Prod.fst = l.map Prod.fst := by
  unfold setAssoc
  rw [if_pos (find?_isSome_of_lookup_some h)]
  rw [List.map_map]
  apply List.map_congr_left
  intro p _
  by_cases hp : p.1 = k
  · simp [hp]
  · simp [hp]

theorem lookupAssoc_map_set {α : Type} {l : List (String × α)} {k : String} {w : α}
    (h : lookupAssoc l k = some w) (v : α) :
    lookupAssoc (l.map (fun p => if p.1 == k then (k, v) else p)) k = some v := by
  induction l with
  | nil => simp [lookupAssoc] at h
  | cons p rest ih =>
      rw [lookupAssoc_cons] at h
      by_cases hp : p.1 = k
      · simp only [List.map_cons, hp, beq_self_eq_true, if_true]
        rw [lookupAssoc_cons]
        simp
      · have hb : (p.1 == k) = false := beq_eq_false_iff_ne.mpr hp
        simp only [List.map_cons, hb, Bool.false_eq_true, if_false]
        simp only [if_neg hp] at h
        rw [lookupAssoc_cons, if_neg hp]
        exact ih h

theorem lookupAssoc_setAssoc_self {α : Type} (l : List (String × α)) (k : String) (v : α) :
    lookupAssoc (setAssoc l k v) k = some v := by
  cases h : lookupAssoc l k with
  | none =>
      rw [setAssoc_of_lookup_none h]
      induction l with
      | nil => simp [lookupAssoc]
      | cons p rest ih =>
          rw [lookupAssoc_cons] at h
          by_cases hp : p.1 = k
          · simp [hp] at h
          · simp only [if_neg hp] at h
            rw [List.cons_append, lookupAssoc_cons, if_neg hp]
            exact ih h
  | some w =>
      unfold setAssoc
      rw [if_pos (find?_isSome_of_lookup_some h)]
      exact lookupAssoc_map_set h v

theorem count_keys_of_lookup_some {α : Type} {l : List (String × α)} {k : String} {v : α}
    (hnd : (l.map Prod.fst).Nodup) (h : lookupAssoc l k = some v) :
    (l.map Prod.fst).count k = 1 :=
  List.count_eq_one_of_mem hnd (lookupAssoc_mem h)

theorem count_keys_setAssoc {α : Type} {l : List (String × α)} {k : String}
    (hnd : (l.map Prod.fst).Nodup) (v : α) :
    ((setAssoc l k v).map Prod.fst).count k = 1 := by
  cases h : lookupAssoc l k with
  | none =>
      rw [setAssoc_of_lookup_none h v]
      have hk : k ∉ l.map Prod.fst := not_mem_keys_of_lookup_none h
      rw [List.map_append, List.count_append]
      simp [List.count_eq_zero.mpr hk]
  | some w =>
      rw [keys_setAssoc_of_lookup_some h v]
      exact count_keys_of_lookup_some hnd h

/-! ## C1: processing-request mutual exclusion -/

/-- C1: a processing request for a documentId whose registered Job is in
status processing is rejected with 409 Conflict carrying the existing Job,
the registry is unchanged and still holds exactly one Job for that
documentId; a request for a documentId with no Job in processing registers a
fresh Job with status processing and progress Initializing... which is
returned immediately, and exactly one Job is then registered for that
documentId. -/
theorem processRequest_mutual_exclusion
    (docs : List (String × Job)) (documentId fileName fileType s3Key now : String)
    (hfn : fileName ≠ "") (hft : fileType ≠ "") (hk : s3Key ≠ "")
    (hkeys : (docs.map Prod.fst).Nodup) :
    (∀ j, lookupAssoc docs documentId = some j → j.status = "processing" →
        processRequest docs documentId fileName fileType s3Key now = (.conflict j, docs) ∧
        (docs.map Prod.fst).count documentId = 1) ∧
    ((∀ j, lookupAssoc docs documentId = some j → j.status ≠ "processing") →
        processRequest docs documentId fileName fileType s3Key now =
          (.started (processingJob documentId fileName fileType s3Key now),
           setAssoc docs documentId (processingJob documentId fileName fileType s3Key now)) ∧
        (processingJob documentId fileName fileType s3Key now).status = "processing" ∧
        (processingJob documentId fileName fileType s3Key now).progress = "Initializing..." ∧
        lookupAssoc
          (setAssoc docs documentId (processingJob documentId fileName fileType s3Key now))
          documentId = some (processingJob documentId fileName fileType s3Key now) ∧
        ((setAssoc docs documentId
            (processingJob documentId fileName fileType s3Key now)).map Prod.fst).count
          documentId = 1) := by
  have hvalid : ¬(fileName = "" ∨ fileType = "" ∨ s3Key = "") := by
    push_neg
    exact ⟨hfn, hft, hk⟩
  constructor
  · intro j hj hstat
    refine ⟨?_, count_keys_of_lookup_some hkeys hj⟩
    unfold processRequest
    rw [if_neg hvalid, hj]
    simp [hstat]
  · intro hfree
    refine ⟨?_, rfl, rfl, lookupAssoc_setAssoc_self .., count_keys_setAssoc hkeys _⟩
    unfold processRequest
    rw [if_neg hvalid]
    cases h : lookupAssoc docs documentId with
    | none => rfl
    | some j => simp [hfree j h]

/-- Witness for C1 at a concrete registry holding one processing Job. -/
theorem processRequest_mutual_exclusion_witness :
    processRequest [("doc1", processingJob "doc1" "a.pdf" "application/pdf" "key1" "t0")]
        "doc1" "b.pdf" "application/pdf" "key2" "t1"
      = (.conflict (processingJob "doc1" "a.pdf" "application/pdf" "key1" "t0"),
         [("doc1", processingJob "doc1" "a.pdf" "application/pdf" "key1" "t0")])
    ∧ ([("doc1", processingJob "doc1" "a.pdf" "application/pdf" "key1" "t0")].map
        Prod.fst).count "doc1" = 1 :=
  (processRequest_mutual_exclusion
    [("doc1", processingJob "doc1" "a.pdf" "application/pdf" "key1" "t0")]
    "doc1" "b.pdf" "application/pdf" "key2" "t1"
    (by decide) (by decide) (by decide) (by decide)).1
    (processingJob "doc1" "a.pdf" "application/pdf" "key1" "t0") (by decide) (by decide)

/-! ## C10: unconstrained deleteMany clears the store -/

theorem deleteManyGo_nil_constraints (l : List StoredVector) :
    deleteManyGo [] l = (l.length, []) := by
  induction l with
  | nil => rfl
  | cons sv rest ih =>
      unfold deleteManyGo
      rw [ih]
      rfl

/-- C10: deleteMany with an argument whose filter member is absent (as in the
{deleteAll: true} argument of clearAllEmbeddings) or holds no key/value
constraints deletes every stored record and reports the previous record count;
clearAllEmbeddings empties the store accordingly. -/
theorem deleteMany_unconstrained_clears_store (store : VectorStore) (arg : DeleteArg)
    (h : arg.filter = none ∨ arg.filter = some []) :
    deleteMany store arg = (store.vectors.length, ⟨[]⟩) ∧
    (clearAllEmbeddings store).2 = ⟨[]⟩ ∧
    (clearAllEmbeddings store).1.deletedCount =
      (if store.vectors.length = 0 then none else some store.vectors.length) := by
  have hget : arg.filter.getD [] = [] := by
    rcases h with h | h <;> rw [h] <;> rfl
  have hmain : deleteMany store arg = (store.vectors.length, ⟨[]⟩) := by
    unfold deleteMany
    rw [hget, deleteManyGo_nil_constraints]
  have hclear : deleteMany store ⟨none, true⟩ = (store.vectors.length, ⟨[]⟩) := by
    unfold deleteMany
    simp only [Option.getD_none, deleteManyGo_nil_constraints]
  refine ⟨hmain, ?_, ?_⟩
  · unfold clearAllEmbeddings
    rw [hclear]
  · unfold clearAllEmbeddings
    rw [hclear]

/-- Witness for C10 on a concrete two-record store. -/
theorem deleteMany_unconstrained_clears_store_witness :
    deleteMany ⟨[⟨"a", [], mdefault⟩, ⟨"b", [], mdefault⟩]⟩ ⟨none, true⟩
      = (2, ⟨[]⟩) :=
  (deleteMany_unconstrained_clears_store
    ⟨[⟨"a", [], mdefault⟩, ⟨"b", [], mdefault⟩]⟩ ⟨none, true⟩ (Or.inl rfl)).1

/-! ## C9: deleting a non-existent document -/

theorem eraseAssoc_of_lookup_none {α : Type} {l : List (String × α)} {k : String}
    (h : lookupAssoc l k = none) : eraseAssoc l k = l := by
  induction l with
  | nil => rfl
  | cons p rest ih =>
      rw [lookupAssoc_cons] at h
      by_cases hp : p.1 = k
      · simp [hp] at h
      · simp only [if_neg hp] at h
        unfold eraseAssoc at ih ⊢
        rw [List.filter_cons, if_pos (by simp [bne_iff_ne, hp]), ih h]

theorem passesFilter_docId (m : VecMetadata) (d : String) :
    passesFilter [("documentId", d)] m = (m.documentId == d) := by
  simp [passesFilter, metaGet]

theorem deleteManyGo_no_match {cs : List (String × String)} {l : List StoredVector}
    (h : ∀ sv ∈ l, passesFilter cs sv.metadata = false) :
    deleteManyGo cs l = (0, l) := by
  induction l with
  | nil => rfl
  | cons sv rest ih =>
      unfold deleteManyGo
      rw [ih (fun x hx => h x (List.mem_cons_of_mem sv hx))]
      rw [h sv (List.mem_cons_self sv rest)]
      rfl

/-- C9: deleting a documentId with no registered Job, no stored chunks and no
embeddings in the vector store completes without error, reports that nothing
was cleared from the Job registry and chunk table (with the embedding deletion
having removed zero records), and leaves the whole state unchanged. -/
theorem deleteDocument_nonexistent (st : AppState) (documentId : String)
    (hdoc : lookupAssoc st.docs documentId = none)
    (hch : lookupAssoc st.chunks documentId = none)
    (hemb : ∀ sv ∈ st.store.vectors, sv.metadata.documentId ≠ documentId) :
    deleteDocument st documentId =
      (⟨documentId, "Unknown Document", false, false, true,
        st.docs.length, st.chunks.length⟩, st) ∧
    (deleteDocumentEmbeddings st.store documentId).1.deletedCount = 0 := by
  have hfilter : ∀ sv ∈ st.store.vectors,
      passesFilter [("documentId", documentId)] sv.metadata = false := by
    intro sv hsv
    rw [passesFilter_docId]
    exact beq_eq_false_iff_ne.mpr (hemb sv hsv)
  have hdel : deleteMany st.store ⟨some [("documentId", documentId)], false⟩
      = (0, st.store) := by
    unfold deleteMany
    rw [show ((⟨some [("documentId", documentId)], false⟩ : DeleteArg).filter.getD [])
        = [("documentId", documentId)] from rfl]
    rw [deleteManyGo_no_match hfilter]
  constructor
  · unfold deleteDocument
    rw [hdoc]
    unfold deleteDocumentEmbeddings
    rw [hdel]
    rw [eraseAssoc_of_lookup_none hdoc, eraseAssoc_of_lookup_none hch, hch]
    rfl
  · unfold deleteDocumentEmbeddings
    rw [hdel]

/-- Witness for C9 on the empty state. -/
theorem deleteDocument_nonexistent_witness :
    deleteDocument ⟨[], [], ⟨[]⟩⟩ "missing" =
      (⟨"missing", "Unknown Document", false, false, true, 0, 0⟩, ⟨[], [], ⟨[]⟩⟩) :=
  (deleteDocument_nonexistent ⟨[], [], ⟨[]⟩⟩ "missing" rfl rfl
    (by intro sv hsv; simp at hsv)).1

/-! ## C8: the token estimate versus the spec word count -/

theorem specCeil_eq (n : Nat) : specCeil n = (3 * n + 3) / 4 := by
  unfold specCeil
  apply le_antisymm
  · rw [Nat.ceil_le]
    have h : (3 * n : Nat) ≤ 4 * ((3 * n + 3) / 4) := by omega
    calc (n : ℚ) * (3 / 4) = ((3 * n : ℕ) : ℚ) / 4 := by push_cast; ring
    _ ≤ (((3 * n + 3) / 4 : ℕ) : ℚ) := by
        rw [div_le_iff (by norm_num : (0:ℚ) < 4)]
        calc ((3 * n : ℕ) : ℚ) ≤ ((4 * ((3 * n + 3) / 4) : ℕ) : ℚ) := by exact_mod_cast h
        _ = (((3 * n + 3) / 4 : ℕ) : ℚ) * 4 := by push_cast; ring
  · by_cases h0 : (3 * n + 3) / 4 = 0
    · simp [h0]
    · have hm : 1 ≤ (3 * n + 3) / 4 := Nat.one_le_iff_ne_zero.mpr h0
      have hnat : 4 * ((3 * n + 3) / 4 - 1) < 3 * n := by omega
      have hlt : (((3 * n + 3) / 4 - 1 : ℕ) : ℚ) < (n : ℚ) * (3 / 4) := by
        calc (((3 * n + 3) / 4 - 1 : ℕ) : ℚ)
            = ((4 * ((3 * n + 3) / 4 - 1) : ℕ) : ℚ) / 4 := by push_cast; ring
        _ < ((3 * n : ℕ) : ℚ) / 4 := by
            exact (div_lt_div_right (by norm_num : (0:ℚ) < 4)).mpr (by exact_mod_cast hnat)
        _ = (n : ℚ) * (3 / 4) := by push_cast; ring
      have hc := Nat.lt_ceil.mpr hlt
      omega

theorem endsSepL_nil : endsSepL [] = 0 := rfl

theorem endsSepL_cons (c : Char) (r : List Char) :
    endsSepL (c :: r) = if r = [] then (if jsWS c then 1 else 0) else endsSepL r := by
  cases r with
  | nil => rfl
  | cons d t => simp [endsSepL, List.getLast?_cons_cons]

theorem splitGo_len (l : List Char) :
    (∀ cur, (jsSplitGo jsWS l (some cur)).length = countWordsGo true l + endsSepL l + 1) ∧
    ((jsSplitGo jsWS l none).length
      = countWordsGo false l + (if l = [] then 1 else endsSepL l)) := by
  induction l with
  | nil => exact ⟨fun cur => rfl, rfl⟩
  | cons c r ih =>
      have h2 := ih.2
      constructor
      · intro cur
        have h1 := ih.1 (c :: cur)
        cases hc : jsWS c <;> by_cases hr : r = [] <;>
          simp_all [jsSplitGo, countWordsGo, endsSepL_cons, endsSepL_nil] <;> omega
      · have h1 := ih.1 [c]
        cases hc : jsWS c <;> by_cases hr : r = [] <;>
          simp_all [jsSplitGo, countWordsGo, endsSepL_cons, endsSepL_nil] <;> omega

theorem jsSplitWS_length (s : String) :
    (jsSplitWS s).length = wordCountSpec s + leadAdj s + trailAdj s := by
  unfold jsSplitWS jsSplit wordCountSpec leadAdj trailAdj
  rw [List.length_map]
  cases hl : s.data with
  | nil => rfl
  | cons c r =>
      rw [(splitGo_len (c :: r)).1 []]
      have htrail : (match (c :: r).getLast? with
          | none => 0
          | some c => if jsWS c then 1 else 0) = endsSepL (c :: r) := rfl
      rw [htrail]
      cases hc : jsWS c with
      | true => simp [countWordsGo, hc]; omega
      | false => simp [countWordsGo, hc]; omega

/-- C8 (amended): the chunker token estimate is ceil(0.75 * n) where n is the
length of the JS whitespace split, which equals the number of
whitespace-separated words plus one empty segment for a leading-whitespace or
empty string and one for trailing whitespace; for a non-empty string with no
leading or trailing whitespace it coincides with the claimed
ceil(wordCount * 0.75). -/
theorem estimateTokens_eq_ceil (s : String) :
    estimateTokens s = specCeil ((jsSplitWS s).length) ∧
    (jsSplitWS s).length = wordCountSpec s + leadAdj s + trailAdj s ∧
    (leadAdj s = 0 → trailAdj s = 0 →
      estimateTokens s = specCeil (wordCountSpec s)) := by
  refine ⟨?_, jsSplitWS_length s, ?_⟩
  · rw [specCeil_eq]
    rfl
  · intro h1 h2
    rw [specCeil_eq]
    unfold estimateTokens
    rw [jsSplitWS_length s, h1, h2]
    omega

/-- Witness for C8 (amended) at a plain two-word string. -/
theorem estimateTokens_eq_ceil_witness :
    estimateTokens "a b" = specCeil (wordCountSpec "a b") :=
  (estimateTokens_eq_ceil "a b").2.2 (by decide) (by decide)

/-- C8 counterexample: the empty string is estimated at 1 token although it
has zero whitespace-separated words (the claim forces 0), and a string with
leading and trailing whitespace is estimated from the empty split artifacts
(3 tokens for a one-word string the claim puts at 1 token). -/
theorem estimateTokens_counterexample :
    estimateTokens "" = 1 ∧ specCeil (wordCountSpec "") = 0 ∧
    estimateTokens " a " = 3 ∧ specCeil (wordCountSpec " a ") = 1 := by
  refine ⟨by decide, ?_, by decide, ?_⟩
  · rw [show wordCountSpec "" = 0 from rfl, specCeil_eq]
  · rw [show wordCountSpec " a " = 1 from by decide, specCeil_eq]

/-! ## C5: chunk indexing -/

theorem indices_append_one {l : List RawChunk} {x : RawChunk}
    (hl : ∀ (i : Nat) (c : RawChunk), l[i]? = some c → c.chunkIndex = i)
    (hx : x.chunkIndex = l.length) :
    ∀ (i : Nat) (c : RawChunk), (l ++ [x])[i]? = some c → c.chunkIndex = i := by
  intro i c h
  have hlen : i < l.length + 1 := by
    have := List.getElem?_eq_some_iff.mp h
    simpa using this.1
  by_cases hi : i < l.length
  · rw [List.getElem?_append, if_pos hi] at h
    exact hl i c h
  · have hieq : i = l.length := by omega
    subst hieq
    have hx' : (l ++ [x])[l.length]? = some x := by simp
    rw [hx'] at h
    cases h
    exact hx

theorem indices_emit {chunks : List RawChunk} {cur : List String} {curTok : Nat}
    (hch : ∀ (i : Nat) (c : RawChunk), chunks[i]? = some c → c.chunkIndex = i) :
    ∀ (i : Nat) (c : RawChunk),
      (if jsTrim (joinSp cur) != "" then
          chunks ++ [⟨jsTrim (joinSp cur), curTok, cur.length, chunks.length⟩]
        else chunks)[i]? = some c → c.chunkIndex = i := by
  intro i c
  split
  · exact indices_append_one hch rfl i c
  · exact hch i c

theorem chunkLoop_indices (maxT ovT : Nat) :
    ∀ (rest cur : List String) (curTok : Nat) (chunks : List RawChunk),
      (∀ (i : Nat) (c : RawChunk), chunks[i]? = some c → c.chunkIndex = i) →
      ∀ (i : Nat) (c : RawChunk),
        (chunkLoop maxT ovT rest cur curTok chunks)[i]? = some c → c.chunkIndex = i := by
  intro rest
  induction rest with
  | nil =>
      intro cur curTok chunks hch i c
      unfold chunkLoop
      split
      · exact indices_emit hch i c
      · exact hch i c
  | cons s rest ih =>
      intro cur curTok chunks hch i c
      unfold chunkLoop
      split
      · exact ih _ _ _ (indices_emit hch) i c
      · exact ih _ _ _ hch i c

theorem addMetaGo_getElem? (documentId : String) (meta : DocMeta) (total : Nat)
    (now : String) :
    ∀ (l : List RawChunk) (k i : Nat),
      (addMetaGo documentId meta total now k l)[i]?
        = l[i]?.map (fun chunk => mkChunkMeta documentId meta total now (k + i) chunk) := by
  intro l
  induction l with
  | nil => intro k i; simp [addMetaGo]
  | cons chunk rest ih =>
      intro k i
      cases i with
      | zero => simp [addMetaGo]
      | succ j =>
          simp only [addMetaGo, List.getElem?_cons_succ, ih (k + 1) j]
          have : k + (j + 1) = k + 1 + j := by omega
          rw [this]

theorem addMetaGo_length (documentId : String) (meta : DocMeta) (total : Nat)
    (now : String) :
    ∀ (l : List RawChunk) (k : Nat),
      (addMetaGo documentId meta total now k l).length = l.length := by
  intro l
  induction l with
  | nil => intro k; rfl
  | cons chunk rest ih => intro k; simp [addMetaGo, ih]

/-- C5: the chunks produced by chunkText followed by addMetadataToChunks carry
chunkIndex values exactly 0..n-1 in emission order (both the top-level field
from chunkText and the metadata field), metadata.totalChunks equals n on every
chunk, and isFirstChunk and isLastChunk hold exactly at indices 0 and n-1. -/
theorem chunk_indexing (text : String) (maxT ovT : Nat) (docId : String) (meta : DocMeta)
    (now : String) (i : Nat) (c : ChunkWithMeta)
    (h : (addMetadataToChunks (chunkText text maxT ovT) docId meta now)[i]? = some c) :
    c.chunkIndex = i ∧
    c.metadata.chunkIndex = i ∧
    c.metadata.totalChunks = (chunkText text maxT ovT).length ∧
    c.metadata.isFirstChunk = (i == 0) ∧
    c.metadata.isLastChunk = (i == (chunkText text maxT ovT).length - 1) ∧
    (addMetadataToChunks (chunkText text maxT ovT) docId meta now).length
      = (chunkText text maxT ovT).length := by
  unfold addMetadataToChunks at h
  rw [addMetaGo_getElem?] at h
  rcases Option.map_eq_some'.mp h with ⟨raw, hraw, hc⟩
  have hidx : raw.chunkIndex = i := by
    refine chunkLoop_indices maxT ovT (splitIntoSentences text) [] 0 [] ?_ i raw hraw
    intro i c hnone
    simp at hnone
  subst hc
  refine ⟨by simpa [mkChunkMeta] using hidx, by simp [mkChunkMeta], by simp [mkChunkMeta],
    by simp [mkChunkMeta], by simp [mkChunkMeta], ?_⟩
  unfold addMetadataToChunks
  rw [addMetaGo_length]

/-- Witness for C5 on a concrete two-sentence text that yields one chunk. -/
theorem chunk_indexing_witness :
    ((addMetadataToChunks (chunkText "Alpha beta. Gamma delta." 400 50) "doc" ⟨"f", "t"⟩
        "now")[0]?.map (fun c =>
      (c.chunkIndex, c.metadata.chunkIndex, c.metadata.totalChunks,
       c.metadata.isFirstChunk, c.metadata.isLastChunk)))
      = some (0, 0, 1, true, true) := by
  have h : (addMetadataToChunks (chunkText "Alpha beta. Gamma delta." 400 50) "doc"
      ⟨"f", "t"⟩ "now")[0]? =
      some (mkChunkMeta "doc" ⟨"f", "t"⟩ 1 "now" 0
        ⟨"Alpha beta. Gamma delta.", 4, 2, 0⟩) := by decide
  have hm := chunk_indexing "Alpha beta. Gamma delta." 400 50 "doc" ⟨"f", "t"⟩ "now" 0 _ h
  rw [h]
  have hn : (chunkText "Alpha beta. Gamma delta." 400 50).length = 1 := by decide
  rw [Option.map_some']
  rw [hn] at hm
  exact congrArg some (by
    refine Prod.ext ?_ (Prod.ext ?_ (Prod.ext ?_ (Prod.ext ?_ ?_))) <;>
      simp [hm.1, hm.2.1, hm.2.2.1, hm.2.2.2.1, hm.2.2.2.2.1])

/-! ## C6: overlap bound between consecutive chunks -/

theorem overlapGo_spec (ovT : Nat) :
    ∀ (l acc : List String) (accTok : Nat),
      accTok = tokSum acc → accTok ≤ ovT →
      (overlapGo ovT l acc accTok).2 = tokSum (overlapGo ovT l acc accTok).1 ∧
      (overlapGo ovT l acc accTok).2 ≤ ovT ∧
      ∃ u v, l = u ++ v ∧ (overlapGo ovT l acc accTok).1 = u.reverse ++ acc := by
  intro l
  induction l with
  | nil =>
      intro acc accTok h1 h2
      exact ⟨h1, h2, [], [], rfl, by simp [overlapGo]⟩
  | cons s rest ih =>
      intro acc accTok h1 h2
      unfold overlapGo
      by_cases hc : accTok + estimateTokens s ≤ ovT
      · simp only [hc, if_true]
        have h1' : accTok + estimateTokens s = tokSum (s :: acc) := by
          simp [tokSum, h1]
          omega
        rcases ih (s :: acc) (accTok + estimateTokens s) h1' hc with ⟨a, b, u, v, huv, hval⟩
        refine ⟨a, b, s :: u, v, by rw [huv]; rfl, ?_⟩
        rw [hval]
        simp
      · simp only [hc, if_false]
        exact ⟨h1, h2, [], s :: rest, rfl, by simp⟩

theorem overlapSuffix_bound (cur : List String) (ovT : Nat) :
    tokSum (overlapSuffix cur ovT) ≤ ovT ∧ ∃ t, t ++ overlapSuffix cur ovT = cur := by
  have h := overlapGo_spec ovT cur.reverse [] 0 (by simp [tokSum]) (Nat.zero_le _)
  rcases h with ⟨heq, hle, u, v, huv, hval⟩
  constructor
  · rw [overlapSuffix, ← heq]
    exact hle
  · refine ⟨v.reverse, ?_⟩
    rw [overlapSuffix, hval]
    have : cur = (u ++ v).reverse := by rw [← huv]; simp
    rw [this]
    simp

theorem mem_joinSp_data {cur : List String} {s : String} {c : Char}
    (hs : s ∈ cur) (hc : c ∈ s.data) : c ∈ (joinSp cur).data := by
  induction cur with
  | nil => simp at hs
  | cons x rest ih =>
      cases rest with
      | nil =>
          simp at hs
          subst hs
          exact hc
      | cons y ys =>
          rcases List.mem_cons.mp hs with rfl | hmem
          · show c ∈ (s ++ " " ++ joinSep " " (y :: ys)).data
            rw [String.data_append, String.data_append]
            exact List.mem_append_left _ (List.mem_append_left _ hc)
          · show c ∈ (x ++ " " ++ joinSep " " (y :: ys)).data
            rw [String.data_append, String.data_append]
            exact List.mem_append_right _ (ih hmem)

theorem exists_nonws_dropWhile {l : List Char}
    (h : ∃ c ∈ l, jsWS c = false) : ∃ c ∈ l.dropWhile jsWS, jsWS c = false := by
  induction l with
  | nil => simpa using h
  | cons x rest ih =>
      rcases h with ⟨c, hc, hws⟩
      by_cases hx : jsWS x = true
      · rw [List.dropWhile_cons_of_pos hx]
        rcases List.mem_cons.mp hc with rfl | hmem
        · rw [hws] at hx
          cases hx
        · exact ih ⟨c, hmem, hws⟩
      · rw [List.dropWhile_cons_of_neg hx]
        exact ⟨c, hc, hws⟩

theorem jsTrim_ne_of_nonws {s : String} (h : ∃ c ∈ s.data, jsWS c = false) :
    jsTrim s ≠ "" := by
  unfold jsTrim
  intro hcontra
  have hmk : (((s.data.dropWhile jsWS).reverse.dropWhile jsWS).reverse) = [] := by
    have := congrArg String.data hcontra
    simpa using this
  have h1 := exists_nonws_dropWhile h
  have h2 : ∃ c ∈ (s.data.dropWhile jsWS).reverse, jsWS c = false := by
    rcases h1 with ⟨c, hc, hws⟩
    exact ⟨c, List.mem_reverse.mpr hc, hws⟩
  have h3 := exists_nonws_dropWhile h2
  rcases h3 with ⟨c, hc, _⟩
  rw [List.reverse_eq_nil_iff] at hmk
  rw [hmk] at hc
  simp at hc

theorem nonws_of_jsTrim_ne {s : String} (h : jsTrim s ≠ "") :
    ∃ c ∈ s.data, jsWS c = false := by
  by_contra hall
  push_neg at hall
  apply h
  unfold jsTrim
  have h1 : s.data.dropWhile jsWS = [] := by
    rw [List.dropWhile_eq_nil_iff]
    intro x hx
    have := hall x hx
    simpa using this
  rw [h1]
  rfl

theorem jsTrim_joinSp_ne {cur : List String} (hne : cur ≠ [])
    (hall : ∀ s ∈ cur, jsTrim s ≠ "") : jsTrim (joinSp cur) ≠ "" := by
  cases cur with
  | nil => exact absurd rfl hne
  | cons x rest =>
      have hx := hall x (List.mem_cons_self x rest)
      rcases nonws_of_jsTrim_ne hx with ⟨c, hc, hws⟩
      exact jsTrim_ne_of_nonws ⟨c, mem_joinSp_data (List.mem_cons_self x rest) hc, hws⟩

theorem unitsLoop_chain (maxT ovT : Nat) :
    ∀ (rest cur : List String) (curTok : Nat) (chunks : List (List String)),
      (∀ s ∈ rest, jsTrim s ≠ "") →
      (∀ s ∈ cur, jsTrim s ≠ "") →
      List.Chain' (fun u v => ∃ t, overlapSuffix u ovT ++ t = v) chunks →
      (∀ lc, chunks.getLast? = some lc → ∃ t, overlapSuffix lc ovT ++ t = cur) →
      List.Chain' (fun u v => ∃ t, overlapSuffix u ovT ++ t = v)
        (chunkUnitsLoop maxT ovT rest cur curTok chunks) := by
  intro rest
  induction rest with
  | nil =>
      intro cur curTok chunks hrest hcur hchain hlast
      unfold chunkUnitsLoop
      split
      · split
        · rw [List.chain'_append]
          refine ⟨hchain, List.chain'_singleton cur, ?_⟩
          intro x hx y hy
          simp only [List.head?_cons, Option.mem_def, Option.some.injEq] at hy
          subst hy
          exact hlast x hx
        · exact hchain
      · exact hchain
  | cons s rest ih =>
      intro cur curTok chunks hrest hcur hchain hlast
      have hrest' : ∀ x ∈ rest, jsTrim x ≠ "" :=
        fun x hx => hrest x (List.mem_cons_of_mem s hx)
      have hs : jsTrim s ≠ "" := hrest s (List.mem_cons_self s rest)
      unfold chunkUnitsLoop
      split
      · rename_i hcond
        have hemit : (jsTrim (joinSp cur) != "") = true := by
          simp only [bne_iff_ne, ne_eq]
          exact jsTrim_joinSp_ne hcond.2 hcur
        rw [if_pos hemit]
        refine ih (overlapSuffix cur ovT ++ [s]) _ (chunks ++ [cur]) hrest' ?_ ?_ ?_
        · intro x hx
          rcases List.mem_append.mp hx with hov | hsx
          · rcases (overlapSuffix_bound cur ovT).2 with ⟨t, ht⟩
            have : x ∈ cur := by
              rw [← ht]
              exact List.mem_append_right t hov
            exact hcur x this
          · rw [List.mem_singleton.mp hsx]
            exact hs
        · rw [List.chain'_append]
          refine ⟨hchain, List.chain'_singleton cur, ?_⟩
          intro x hx y hy
          simp only [List.head?_cons, Option.mem_def, Option.some.injEq] at hy
          subst hy
          exact hlast x hx
        · intro lc hlc
          rw [List.getLast?_append] at hlc
          have hlc' : cur = lc := by simpa [Option.or] using hlc
          subst hlc'
          exact ⟨[s], rfl⟩
      · rename_i hcond
        refine ih (cur ++ [s]) _ chunks hrest' ?_ hchain ?_
        · intro x hx
          rcases List.mem_append.mp hx with hc | hsx
          · exact hcur x hc
          · rw [List.mem_singleton.mp hsx]
            exact hs
        · intro lc hlc
          rcases hlast lc hlc with ⟨t, ht⟩
          exact ⟨t ++ [s], by rw [← List.append_assoc, ht]⟩

theorem loops_text_correspond (maxT ovT : Nat) :
    ∀ (rest cur : List String) (curTok : Nat) (chunks : List RawChunk)
      (units : List (List String)),
      chunks.map RawChunk.text = units.map (fun u => jsTrim (joinSp u)) →
      chunks.length = units.length →
      (chunkLoop maxT ovT rest cur curTok chunks).map RawChunk.text
        = (chunkUnitsLoop maxT ovT rest cur curTok units).map (fun u => jsTrim (joinSp u)) ∧
      (chunkLoop maxT ovT rest cur curTok chunks).length
        = (chunkUnitsLoop maxT ovT rest cur curTok units).length := by
  intro rest
  induction rest with
  | nil =>
      intro cur curTok chunks units hmap hlen
      unfold chunkLoop chunkUnitsLoop
      split
      · split
        · constructor
          · rw [List.map_append, List.map_append, hmap]
            rfl
          · simp [hlen]
        · exact ⟨hmap, hlen⟩
      · exact ⟨hmap, hlen⟩
  | cons s rest ih =>
      intro cur curTok chunks units hmap hlen
      unfold chunkLoop chunkUnitsLoop
      split
      · split
        · refine ih _ _ _ _ ?_ ?_
          · rw [List.map_append, List.map_append, hmap]
            rfl
          · simp [hlen]
        · exact ih _ _ _ _ hmap hlen
      · exact ih _ _ _ _ hmap hlen

/-- C6: for consecutive chunks of chunkText, the sentence units carried over
as overlap are a suffix of the earlier chunk and a prefix of the later chunk,
and their cumulative token estimate never exceeds overlapTokens (so in
particular the claimed bound, which also allows a single oversized sentence,
holds); the emitted chunk texts are exactly the trimmed space-joins of those
sentence-unit chunks. -/
theorem chunk_overlap_bound (text : String) (maxT ovT : Nat) :
    (∀ u : List String, tokSum (overlapSuffix u ovT) ≤ ovT ∧
        ∃ t, t ++ overlapSuffix u ovT = u) ∧
    List.Chain' (fun u v => ∃ t, overlapSuffix u ovT ++ t = v)
      (chunkUnits text maxT ovT) ∧
    (chunkText text maxT ovT).map RawChunk.text
      = (chunkUnits text maxT ovT).map (fun u => jsTrim (joinSp u)) := by
  refine ⟨fun u => overlapSuffix_bound u ovT, ?_, ?_⟩
  · refine unitsLoop_chain maxT ovT (splitIntoSentences text) [] 0 [] ?_ ?_ ?_ ?_
    · intro s hs
      unfold splitIntoSentences at hs
      have := List.of_mem_filter hs
      simpa [bne_iff_ne] using this
    · intro s hs
      simp at hs
    · exact List.chain'_nil
    · intro lc hlc
      simp at hlc
  · exact (loops_text_correspond maxT ovT (splitIntoSentences text) [] 0 [] [] rfl rfl).1

/-! ## C4: cosine similarity bounds and zero-vector safety -/

theorem sumSq_nonneg (l : List ℝ) : 0 ≤ sumSq l := by
  apply List.sum_nonneg
  intro x hx
  rcases List.mem_map.mp hx with ⟨v, _, rfl⟩
  exact mul_self_nonneg v

theorem sumSq_cons (x : ℝ) (l : List ℝ) : sumSq (x :: l) = x * x + sumSq l := by
  simp [sumSq]

theorem pairs_cs (l : List (ℝ × ℝ)) :
    ((l.map (fun p => p.1 * p.2)).sum) * ((l.map (fun p => p.1 * p.2)).sum)
      ≤ ((l.map (fun p => p.1 * p.1)).sum) * ((l.map (fun p => p.2 * p.2)).sum) := by
  induction l with
  | nil => simp
  | cons p r ih =>
      obtain ⟨x, y⟩ := p
      simp only [List.map_cons, List.sum_cons]
      set D := (r.map (fun p => p.1 * p.2)).sum with hD
      set A := (r.map (fun p => p.1 * p.1)).sum with hA
      set B := (r.map (fun p => p.2 * p.2)).sum with hB
      have hApos : 0 ≤ A := by
        apply List.sum_nonneg
        intro v hv
        rcases List.mem_map.mp hv with ⟨q, _, rfl⟩
        exact mul_self_nonneg q.1
      have hBpos : 0 ≤ B := by
        apply List.sum_nonneg
        intro v hv
        rcases List.mem_map.mp hv with ⟨q, _, rfl⟩
        exact mul_self_nonneg q.2
      set sA := Real.sqrt A with hsA
      set sB := Real.sqrt B with hsB
      have hsA2 : sA * sA = A := Real.mul_self_sqrt hApos
      have hsB2 : sB * sB = B := Real.mul_self_sqrt hBpos
      have hsAnn : 0 ≤ sA := Real.sqrt_nonneg A
      have hsBnn : 0 ≤ sB := Real.sqrt_nonneg B
      have hprod : 0 ≤ sA * sB := mul_nonneg hsAnn hsBnn
      have h6 : D * D ≤ (sA * sB) * (sA * sB) := by
        have : (sA * sB) * (sA * sB) = A * B := by
          rw [mul_mul_mul_comm, hsA2, hsB2]
        rw [this]
        exact ih
      have hDabs : |D| ≤ sA * sB := by
        calc |D| = Real.sqrt (D * D) := (Real.sqrt_mul_self_eq_abs D).symm
        _ ≤ Real.sqrt ((sA * sB) * (sA * sB)) := Real.sqrt_le_sqrt h6
        _ = sA * sB := Real.sqrt_mul_self hprod
      have key : 2 * (x * y) * D ≤ (x * x) * B + A * (y * y) := by
        calc 2 * (x * y) * D ≤ |2 * (x * y) * D| := le_abs_self _
        _ = 2 * |x * y| * |D| := by
            rw [abs_mul, abs_mul]
            simp [abs_of_nonneg]
        _ ≤ 2 * |x * y| * (sA * sB) := by
            have h2 : 0 ≤ 2 * |x * y| := by positivity
            exact mul_le_mul_of_nonneg_left hDabs h2
        _ = 2 * (|x| * sB) * (|y| * sA) := by
            rw [abs_mul]
            ring
        _ ≤ (|x| * sB) ^ 2 + (|y| * sA) ^ 2 := two_mul_le_add_sq _ _
        _ = (x * x) * B + A * (y * y) := by
            rw [mul_pow, mul_pow, sq_abs, sq_abs, sq, sq, sq, sq, hsA2, hsB2]
            ring
      nlinarith [ih, key]

theorem zip_fst_sq_le (a b : List ℝ) :
    ((a.zip b).map (fun p => p.1 * p.1)).sum ≤ sumSq a := by
  induction a generalizing b with
  | nil => simp [sumSq]
  | cons x r ih =>
      cases b with
      | nil =>
          simp only [List.zip_nil_right, List.map_nil, List.sum_nil]
          exact sumSq_nonneg _
      | cons y s =>
          simp only [List.zip_cons_cons, List.map_cons, List.sum_cons, sumSq_cons]
          exact add_le_add_left (ih s) _

theorem zip_snd_sq_le (a b : List ℝ) :
    ((a.zip b).map (fun p => p.2 * p.2)).sum ≤ sumSq b := by
  induction a generalizing b with
  | nil => simpa [sumSq] using sumSq_nonneg b
  | cons x r ih =>
      cases b with
      | nil => simp [sumSq]
      | cons y s =>
          simp only [List.zip_cons_cons, List.map_cons, List.sum_cons, sumSq_cons]
          exact add_le_add_left (ih s) _

theorem dotList_sq_le (a b : List ℝ) :
    dotList a b * dotList a b ≤ sumSq a * sumSq b := by
  refine le_trans (pairs_cs (a.zip b)) ?_
  have hzsnd : 0 ≤ ((a.zip b).map (fun p => p.2 * p.2)).sum := by
    apply List.sum_nonneg
    intro v hv
    rcases List.mem_map.mp hv with ⟨q, _, rfl⟩
    exact mul_self_nonneg q.2
  exact mul_le_mul (zip_fst_sq_le a b) (zip_snd_sq_le a b) hzsnd (sumSq_nonneg a)

theorem sumSq_replicate_zero (n : Nat) : sumSq (List.replicate n 0) = 0 := by
  induction n with
  | zero => rfl
  | succ k ih => simp [List.replicate_succ, sumSq_cons, ih]

theorem cosineSimilarity_bounds (a b : List ℝ) :
    -1 ≤ cosineSimilarity a b ∧ cosineSimilarity a b ≤ 1 := by
  unfold cosineSimilarity
  by_cases hlen : a.length ≠ b.length
  · rw [if_pos hlen]
    norm_num
  · rw [if_neg hlen]
    simp only []
    by_cases hmag : Real.sqrt (sumSq a) * Real.sqrt (sumSq b) > 0
    · rw [if_pos hmag]
      have habs : |dotList a b| ≤ Real.sqrt (sumSq a) * Real.sqrt (sumSq b) := by
        calc |dotList a b| = Real.sqrt (dotList a b * dotList a b) :=
              (Real.sqrt_mul_self_eq_abs _).symm
        _ ≤ Real.sqrt (sumSq a * sumSq b) := Real.sqrt_le_sqrt (dotList_sq_le a b)
        _ = Real.sqrt (sumSq a) * Real.sqrt (sumSq b) := Real.sqrt_mul (sumSq_nonneg a) _
      constructor
      · rw [le_div_iff hmag]
        have := neg_abs_le (dotList a b)
        nlinarith [habs]
      · rw [div_le_one hmag]
        exact le_trans (le_abs_self _) habs
    · rw [if_neg hmag]
      norm_num

theorem cosineSimilarity_replicate_zero_left (n : Nat) (b : List ℝ) :
    cosineSimilarity (List.replicate n 0) b = 0 := by
  unfold cosineSimilarity
  by_cases hlen : (List.replicate n (0:ℝ)).length ≠ b.length
  · rw [if_pos hlen]
  · rw [if_neg hlen]
    simp only [sumSq_replicate_zero, Real.sqrt_zero, zero_mul]
    norm_num

theorem cosineSimilarity_replicate_zero_right (a : List ℝ) (n : Nat) :
    cosineSimilarity a (List.replicate n 0) = 0 := by
  unfold cosineSimilarity
  by_cases hlen : a.length ≠ (List.replicate n (0:ℝ)).length
  · rw [if_pos hlen]
  · rw [if_neg hlen]
    simp only [sumSq_replicate_zero, Real.sqrt_zero, mul_zero]
    norm_num

theorem mem_insertDesc {x y : QueryMatch} {l : List QueryMatch} :
    y ∈ insertDesc x l ↔ y = x ∨ y ∈ l := by
  induction l with
  | nil => simp [insertDesc]
  | cons z r ih =>
      unfold insertDesc
      split
      · simp
      · rw [List.mem_cons, ih, List.mem_cons]
        tauto

theorem mem_sortByScoreDesc {y : QueryMatch} {l : List QueryMatch} :
    y ∈ sortByScoreDesc l ↔ y ∈ l := by
  induction l with
  | nil => simp [sortByScoreDesc]
  | cons z r ih =>
      unfold sortByScoreDesc
      rw [mem_insertDesc, ih, List.mem_cons]

/-- C4: cosine similarity is always within [-1, 1]; for equal-length vectors
it is dot(a,b) / (norm(a) * norm(b)) with the value 0 whenever either norm is
0; and an all-zero vector scores 0 against any vector, in either position,
so querying the store with an all-zero vector yields score 0 on every match. -/
theorem cosineSimilarity_spec (a b : List ℝ) (n : Nat) :
    (-1 ≤ cosineSimilarity a b ∧ cosineSimilarity a b ≤ 1) ∧
    (a.length = b.length →
      cosineSimilarity a b =
        (if normL2 a = 0 ∨ normL2 b = 0 then 0
         else dotList a b / (normL2 a * normL2 b))) ∧
    cosineSimilarity (List.replicate n 0) b = 0 ∧
    cosineSimilarity a (List.replicate n 0) = 0 ∧
    (∀ (store : VectorStore) (topK : Nat) (inc : Bool) (f : List (String × String))
        (r : QueryMatch), r ∈ query store (List.replicate n 0) topK inc f → r.score = 0) := by
  refine ⟨cosineSimilarity_bounds a b, ?_, cosineSimilarity_replicate_zero_left n b,
    cosineSimilarity_replicate_zero_right a n, ?_⟩
  · intro hlen
    unfold cosineSimilarity
    rw [if_neg (by omega)]
    simp only []
    by_cases hz : normL2 a = 0 ∨ normL2 b = 0
    · rw [if_pos hz]
      have hmag : ¬ Real.sqrt (sumSq a) * Real.sqrt (sumSq b) > 0 := by
        rcases hz with h | h
        · rw [normL2] at h
          rw [h, zero_mul]
          exact lt_irrefl 0
        · rw [normL2] at h
          rw [h, mul_zero]
          exact lt_irrefl 0
      rw [if_neg hmag]
    · rw [if_neg hz]
      push_neg at hz
      have ha : 0 < normL2 a :=
        lt_of_le_of_ne (Real.sqrt_nonneg _) (Ne.symm hz.1)
      have hb : 0 < normL2 b :=
        lt_of_le_of_ne (Real.sqrt_nonneg _) (Ne.symm hz.2)
      simp only [normL2] at ha hb ⊢
      rw [if_pos (mul_pos ha hb)]
  · intro store topK inc f r hr
    unfold query at hr
    have hr1 : r ∈ sortByScoreDesc (store.vectors.filterMap (fun sv =>
        if passesFilter f sv.metadata then
          some ⟨sv.id, cosineSimilarity (List.replicate n 0) sv.values,
                if inc then some sv.metadata else none⟩
        else none)) := List.take_subset topK _ hr
    rw [mem_sortByScoreDesc] at hr1
    rcases List.mem_filterMap.mp hr1 with ⟨sv, _, hsv⟩
    split at hsv
    · cases hsv
      exact cosineSimilarity_replicate_zero_left n sv.values
    · cases hsv

/-- Witness for C4: the formula conjunct evaluated at the one-dimensional
vectors [1] and [2] gives similarity 1. -/
theorem cosineSimilarity_spec_witness : cosineSimilarity [(1:ℝ)] [(2:ℝ)] = 1 := by
  have h := (cosineSimilarity_spec [(1:ℝ)] [(2:ℝ)] 0).2.1 rfl
  rw [h]
  have hA : sumSq [(1:ℝ)] = 1 := by norm_num [sumSq]
  have hB : sumSq [(2:ℝ)] = 4 := by norm_num [sumSq]
  have hnA : normL2 [(1:ℝ)] = 1 := by rw [normL2, hA, Real.sqrt_one]
  have hnB : normL2 [(2:ℝ)] = 2 := by
    rw [normL2, hB, show (4:ℝ) = 2 ^ 2 by norm_num,
      Real.sqrt_sq (by norm_num : (0:ℝ) ≤ 2)]
  rw [hnA, hnB, if_neg (by norm_num)]
  have hd : dotList [(1:ℝ)] [(2:ℝ)] = 2 := by norm_num [dotList]
  rw [hd]
  norm_num

/-! ## C7: candidate sentences for answer synthesis -/

theorem jsSplitGo_no_sep (p : Char → Bool) :
    ∀ (l : List Char) (st : Option (List Char)),
      (∀ cur, st = some cur → ∀ c ∈ cur, p c = false) →
      ∀ seg ∈ jsSplitGo p l st, ∀ c ∈ seg, p c = false := by
  intro l
  induction l with
  | nil =>
      intro st hst seg hseg c hc
      match st with
      | some cur =>
          simp only [jsSplitGo, List.mem_singleton] at hseg
          subst hseg
          exact hst cur rfl c (List.mem_reverse.mp hc)
      | none =>
          simp only [jsSplitGo, List.mem_singleton] at hseg
          subst hseg
          simp at hc
  | cons x r ih =>
      intro st hst seg hseg c hc
      match st with
      | some cur =>
          simp only [jsSplitGo] at hseg
          by_cases hx : p x = true
          · rw [if_pos hx] at hseg
            rcases List.mem_cons.mp hseg with rfl | hmem
            · exact hst cur rfl c (List.mem_reverse.mp hc)
            · exact ih none (by intro cur h; cases h) seg hmem c hc
          · rw [if_neg hx] at hseg
            refine ih (some (x :: cur)) ?_ seg hseg c hc
            intro cur' hcur' d hd
            cases hcur'
            rcases List.mem_cons.mp hd with rfl | hmem
            · simpa using hx
            · exact hst cur rfl d hmem
      | none =>
          simp only [jsSplitGo] at hseg
          by_cases hx : p x = true
          · rw [if_pos hx] at hseg
            exact ih none (by intro cur h; cases h) seg hseg c hc
          · rw [if_neg hx] at hseg
            refine ih (some [x]) ?_ seg hseg c hc
            intro cur' hcur' d hd
            cases hcur'
            rcases List.mem_cons.mp hd with rfl | hmem
            · simpa using hx
            · simp at hmem

/-- C7 (amended): the candidate sentences are at most 15, each is the trim of
a segment of the split of the combined context on runs of terminal marks and
is strictly longer than 20 characters, and no segment of that split contains
a terminal mark (the marks are separators and are dropped, unlike the
chunker's split which keeps them). -/
theorem candidateSentences_spec (ct : String) :
    (candidateSentences ct).length ≤ 15 ∧
    (∀ s ∈ candidateSentences ct, 20 < s.length ∧
      ∃ seg ∈ jsSplitPunct ct, s = jsTrim seg) ∧
    (∀ seg ∈ jsSplitPunct ct, ∀ c ∈ seg.data, isMark c = false) := by
  refine ⟨List.length_take_le _ _, ?_, ?_⟩
  · intro s hs
    have hs1 := List.mem_of_mem_take hs
    have hlen := List.of_mem_filter hs1
    have hs2 := List.mem_of_mem_filter hs1
    rcases List.mem_map.mp hs2 with ⟨seg, hseg, rfl⟩
    refine ⟨by simpa using hlen, seg, hseg, rfl⟩
  · intro seg hseg c hc
    unfold jsSplitPunct jsSplit at hseg
    rcases List.mem_map.mp hseg with ⟨l, hl, rfl⟩
    refine jsSplitGo_no_sep isMark ct.data (some []) ?_ l hl c hc
    intro cur hcur d hd
    cases hcur
    simp at hd

/-- Witness for C7 (amended) at a concrete context string. -/
theorem candidateSentences_spec_witness :
    20 < ("14 is used by the whole team here" : String).length ∧
    ∃ seg ∈ jsSplitPunct "The value 3.14 is used by the whole team here!",
      ("14 is used by the whole team here" : String) = jsTrim seg :=
  (candidateSentences_spec "The value 3.14 is used by the whole team here!").2.1
    "14 is used by the whole team here" (by decide)

/-- C7 counterexample: the chat route splits on every run of terminal marks
(not the chunker's mark-then-whitespace rule, so 3.14 is torn apart) and
discards sentences of exactly 20 characters (the claim keeps them). -/
theorem candidateSentences_counterexample :
    candidateSentences "The value 3.14 is used by the whole team here!"
      ≠ candidateSentencesClaimed "The value 3.14 is used by the whole team here!" ∧
    candidateSentences "The value 3.14 is used by the whole team here!"
      = ["14 is used by the whole team here"] ∧
    candidateSentencesClaimed "The value 3.14 is used by the whole team here!"
      = ["The value 3.14 is used by the whole team here!"] ∧
    candidateSentences "abcdefghij abcdefghi" = [] ∧
    candidateSentencesClaimed "abcdefghij abcdefghi" = ["abcdefghij abcdefghi"] := by
  refine ⟨by decide, by decide, by decide, by decide, by decide⟩

/-! ## Concrete evaluation of the development embedding -/

theorem getD_replicate_zero (n i : Nat) (h : i < n) :
    (List.replicate n (0:ℝ)).getD i 0 = 0 := by
  induction n generalizing i with
  | zero => omega
  | succ k ih =>
      cases i with
      | zero => simp [List.replicate_succ]
      | succ j =>
          rw [List.replicate_succ]
          simp only [List.getD_cons_succ]
          exact ih j (by omega)

theorem sumSq_set_replicate (n i : Nat) (x : ℝ) (h : i < n) :
    sumSq ((List.replicate n (0:ℝ)).set i x) = x * x := by
  induction n generalizing i with
  | zero => omega
  | succ k ih =>
      cases i with
      | zero =>
          rw [List.replicate_succ, List.set_cons_zero, sumSq_cons, sumSq_replicate_zero]
          ring
      | succ j =>
          rw [List.replicate_succ, List.set_cons_succ, sumSq_cons, ih j (by omega)]
          ring

theorem sumSq_map_div (l : List ℝ) (m : ℝ) :
    sumSq (l.map (fun v => v / m)) = sumSq l / (m * m) := by
  induction l with
  | nil => simp [sumSq]
  | cons x r ih =>
      rw [List.map_cons, sumSq_cons, sumSq_cons, ih, div_mul_div_comm, div_add_div_same]

theorem dotList_self (v : List ℝ) : dotList v v = sumSq v := by
  induction v with
  | nil => rfl
  | cons x r ih =>
      unfold dotList at ih ⊢
      rw [List.zip_cons_cons, List.map_cons, List.sum_cons, ih, sumSq_cons]

theorem cosineSimilarity_self {v : List ℝ} (h : 0 < sumSq v) :
    cosineSimilarity v v = 1 := by
  unfold cosineSimilarity
  rw [if_neg (by simp)]
  simp only []
  have hm : Real.sqrt (sumSq v) * Real.sqrt (sumSq v) = sumSq v :=
    Real.mul_self_sqrt (le_of_lt h)
  rw [if_pos (by rw [hm]; exact h), dotList_self, hm]
  exact div_self (ne_of_gt h)

theorem sin97_ne : Real.sin ((97:ℕ):ℝ) ≠ 0 := by
  intro h
  rcases Real.sin_eq_zero_iff.mp h with ⟨n, hn⟩
  rw [show ((97:ℕ):ℝ) = (97:ℝ) from by norm_num] at hn
  have hn0 : n ≠ 0 := by
    rintro rfl
    norm_num at hn
  have hcast : (n:ℝ) ≠ 0 := Int.cast_ne_zero.mpr hn0
  have hpi : Real.pi = (97:ℝ) / (n:ℝ) := by
    rw [eq_div_iff hcast, mul_comm]
    exact hn
  exact irrational_pi ⟨(97:ℚ) / (n:ℚ), by push_cast; rw [hpi]⟩

theorem raw_a :
    ((jsSplitWS (jsToLower "a")).enum).foldl (fun v p => applyWord 1536 p.1 p.2.data v)
        (List.replicate 1536 (0:ℝ))
      = (List.replicate 1536 (0:ℝ)).set 97 (Real.sin ((97:ℕ):ℝ) * 0.1) := by
  rw [show jsSplitWS (jsToLower "a") = ["a"] from by decide]
  show applyWord 1536 0 "a".data (List.replicate 1536 (0:ℝ)) = _
  unfold applyWord
  show addAt (List.replicate 1536 (0:ℝ)) 97
      (Real.sin (((97:ℕ):ℝ) + ((0:ℕ):ℝ)) * 0.1) = _
  rw [Nat.cast_zero, add_zero]
  unfold addAt
  rw [getD_replicate_zero 1536 97 (by norm_num), zero_add]

theorem textToVector_a :
    textToVector "a"
      = ((List.replicate 1536 (0:ℝ)).set 97 (Real.sin ((97:ℕ):ℝ) * 0.1)).map
          (fun val => val /
            Real.sqrt (Real.sin ((97:ℕ):ℝ) * 0.1 * (Real.sin ((97:ℕ):ℝ) * 0.1))) := by
  unfold textToVector
  simp only []
  rw [raw_a, sumSq_set_replicate 1536 97 _ (by norm_num)]
  have hs : Real.sin ((97:ℕ):ℝ) * 0.1 ≠ 0 := mul_ne_zero sin97_ne (by norm_num)
  have hpos : 0 < Real.sqrt (Real.sin ((97:ℕ):ℝ) * 0.1 * (Real.sin ((97:ℕ):ℝ) * 0.1)) :=
    Real.sqrt_pos.mpr (mul_self_pos.mpr hs)
  rw [if_pos hpos]

theorem sumSq_textToVector_a : sumSq (textToVector "a") = 1 := by
  rw [textToVector_a, sumSq_map_div, sumSq_set_replicate 1536 97 _ (by norm_num),
    Real.mul_self_sqrt (mul_self_nonneg _)]
  have hs : Real.sin ((97:ℕ):ℝ) * 0.1 ≠ 0 := mul_ne_zero sin97_ne (by norm_num)
  exact div_self (fun hc => hs (mul_self_eq_zero.mp hc))

theorem cosine_qa : cosineSimilarity (textToVector "a") (textToVector "a") = 1 :=
  cosineSimilarity_self (by rw [sumSq_textToVector_a]; norm_num)

/-! ## Chat pipeline evaluation helpers -/

theorem jsOrReal_some_ne {x d : ℝ} (h : x ≠ 0) : jsOrReal (some x) d = x := by
  show (if x = 0 then d else x) = x
  rw [if_neg h]

theorem sortByScoreDesc_singleton (x : QueryMatch) : sortByScoreDesc [x] = [x] := by
  simp [sortByScoreDesc, insertDesc]

theorem filterByThreshold_nil (th : ℝ) : filterByThreshold th [] = [] := rfl

theorem searchSimilarChunks_empty_store (msg : String) (opts : SearchOptions) :
    (searchSimilarChunks (⟨[]⟩ : VectorStore) msg opts).results = [] := by
  unfold searchSimilarChunks query
  simp [sortByScoreDesc, filterByThreshold]

/-- Shared three-branch characterization of the chat route after validation:
use the 0.15-threshold search when non-empty, else the 0.05 retry, else the
fixed no-information answer. -/
theorem chat_branches (st : AppState) (msg : String) (docId : Option String) (mc : Nat)
    (hmsg : jsTrim msg ≠ "")
    (hcomp : ((st.docs.map Prod.snd).filter
      (fun doc => doc.status == "completed")).length ≠ 0) :
    ((searchSimilarChunks st.store msg ⟨some mc, docId, some 0.15⟩).results ≠ [] →
      chat st msg docId mc = .ok ⟨msg,
        generateContextualResponse msg
          (contextOf (searchSimilarChunks st.store msg ⟨some mc, docId, some 0.15⟩).results),
        (contextOf (searchSimilarChunks st.store msg
            ⟨some mc, docId, some 0.15⟩).results).map (fun chunk => ⟨chunk.source⟩),
        (searchSimilarChunks st.store msg ⟨some mc, docId, some 0.15⟩).results.length⟩) ∧
    ((searchSimilarChunks st.store msg ⟨some mc, docId, some 0.15⟩).results = [] →
      (searchSimilarChunks st.store msg ⟨some mc, docId, some 0.05⟩).results ≠ [] →
      chat st msg docId mc = .ok ⟨msg,
        generateContextualResponse msg
          (contextOf (searchSimilarChunks st.store msg ⟨some mc, docId, some 0.05⟩).results),
        (contextOf (searchSimilarChunks st.store msg
            ⟨some mc, docId, some 0.05⟩).results).map (fun chunk => ⟨chunk.source⟩),
        (searchSimilarChunks st.store msg ⟨some mc, docId, some 0.05⟩).results.length⟩) ∧
    ((searchSimilarChunks st.store msg ⟨some mc, docId, some 0.15⟩).results = [] →
      (searchSimilarChunks st.store msg ⟨some mc, docId, some 0.05⟩).results = [] →
      chat st msg docId mc = .ok ⟨msg, noInfoAnswer, [], 0⟩) := by
  refine ⟨?_, ?_, ?_⟩
  · intro h1
    unfold chat
    rw [if_neg hmsg, if_neg hcomp]
    simp only []
    have hlen1 : ¬((searchSimilarChunks st.store msg
        ⟨some mc, docId, some 0.15⟩).results.length = 0) := by
      rw [List.length_eq_zero]
      exact h1
    rw [if_neg hlen1, if_neg hlen1]
  · intro h1 h2
    unfold chat
    rw [if_neg hmsg, if_neg hcomp]
    simp only []
    have hlen1 : (searchSimilarChunks st.store msg
        ⟨some mc, docId, some 0.15⟩).results.length = 0 := by
      rw [List.length_eq_zero]
      exact h1
    have hlen2 : ¬((searchSimilarChunks st.store msg
        ⟨some mc, docId, some 0.05⟩).results.length = 0) := by
      rw [List.length_eq_zero]
      exact h2
    rw [if_pos hlen1, if_neg hlen2]
  · intro h1 h2
    unfold chat
    rw [if_neg hmsg, if_neg hcomp]
    simp only []
    have hlen1 : (searchSimilarChunks st.store msg
        ⟨some mc, docId, some 0.15⟩).results.length = 0 := by
      rw [List.length_eq_zero]
      exact h1
    have hlen2 : (searchSimilarChunks st.store msg
        ⟨some mc, docId, some 0.05⟩).results.length = 0 := by
      rw [List.length_eq_zero]
      exact h2
    rw [if_pos hlen1, if_pos hlen2]

theorem contextOf_sources (rs : List QueryMatch) :
    (contextOf rs).map (fun chunk => (⟨chunk.source⟩ : SourceRef))
      = rs.map (fun r => (⟨(metaOf r).fileName⟩ : SourceRef)) := by
  unfold contextOf
  rw [List.map_map]
  rfl

theorem query_ceStoreOne (qk : Nat) (hq : 1 ≤ qk) :
    query ceStoreOne (textToVector "a") qk true [] = [⟨"c1", 1, some metaW⟩] := by
  unfold query ceStoreOne
  simp only [List.filterMap_cons, List.filterMap_nil]
  rw [show passesFilter [] metaW = true from rfl]
  simp only [if_true, cosine_qa]
  rw [sortByScoreDesc_singleton]
  exact List.take_of_length_le (by simpa using hq)

theorem query_ceStoreTwo (qk : Nat) (hq : 2 ≤ qk) :
    query ceStoreTwo (textToVector "a") qk true []
      = [⟨"c1", 1, some metaW⟩, ⟨"c2", 1, some metaW2⟩] := by
  unfold query ceStoreTwo
  simp only [List.filterMap_cons, List.filterMap_nil]
  rw [show passesFilter [] metaW = true from rfl,
    show passesFilter [] metaW2 = true from rfl]
  simp only [if_true, cosine_qa]
  have hsort : sortByScoreDesc [⟨"c1", 1, some metaW⟩, ⟨"c2", 1, some metaW2⟩]
      = [⟨"c1", 1, some metaW⟩, ⟨"c2", 1, some metaW2⟩] := by
    simp [sortByScoreDesc, insertDesc]
  rw [hsort]
  exact List.take_of_length_le (by simpa using hq)

theorem filterByThreshold_one {th : ℝ} (id : String) (m : Option VecMetadata)
    (h : th ≤ 1) :
    filterByThreshold th [⟨id, 1, m⟩] = [⟨id, 1, m⟩] := by
  unfold filterByThreshold
  rw [if_pos h]
  rfl

theorem filterByThreshold_two {th : ℝ} (i1 i2 : String) (m1 m2 : Option VecMetadata)
    (h : th ≤ 1) :
    filterByThreshold th [⟨i1, 1, m1⟩, ⟨i2, 1, m2⟩] = [⟨i1, 1, m1⟩, ⟨i2, 1, m2⟩] := by
  unfold filterByThreshold filterByThreshold
  rw [if_pos h, if_pos h]
  rfl

theorem search_ceStateOne (mcOpt : Nat) (th : ℝ) (hth : th ≠ 0) (hth1 : th ≤ 1)
    (htk : 1 ≤ jsOrNat (some mcOpt) 5) :
    (searchSimilarChunks ceStateOne.store "a" ⟨some mcOpt, none, some th⟩).results
      = [⟨"c1", 1, some metaW⟩] := by
  unfold searchSimilarChunks
  simp only []
  rw [show docFilter none = [] from rfl,
    show ceStateOne.store = ceStoreOne from rfl,
    query_ceStoreOne _ htk, jsOrReal_some_ne hth, filterByThreshold_one _ _ hth1]

theorem search_ceStateTwo (mcOpt : Nat) (th : ℝ) (hth : th ≠ 0) (hth1 : th ≤ 1)
    (htk : 2 ≤ jsOrNat (some mcOpt) 5) :
    (searchSimilarChunks ceStateTwo.store "a" ⟨some mcOpt, none, some th⟩).results
      = [⟨"c1", 1, some metaW⟩, ⟨"c2", 1, some metaW2⟩] := by
  unfold searchSimilarChunks
  simp only []
  rw [show docFilter none = [] from rfl,
    show ceStateTwo.store = ceStoreTwo from rfl,
    query_ceStoreTwo _ htk, jsOrReal_some_ne hth, filterByThreshold_two _ _ _ _ hth1]

/-! ## C2: search thresholds, retry and fallback -/

/-- C2 (amended): for every accepted chat request with a completed Job
present, the vector store is first searched with threshold 0.15 and
topK = maxChunks when maxChunks is non-zero (topK 5 when maxChunks = 0, from
the JS || default); if zero matches pass the threshold exactly one retry runs
at threshold 0.05 over the same query, its matches become the retrieved
chunks, and if the retry is also empty the response is the fixed
no-relevant-information answer with empty sources and relevantChunks 0. -/
theorem chat_threshold_retry (st : AppState) (msg : String) (docId : Option String)
    (mc : Nat) (hmsg : jsTrim msg ≠ "")
    (hcomp : ((st.docs.map Prod.snd).filter
      (fun doc => doc.status == "completed")).length ≠ 0) :
    ((searchSimilarChunks st.store msg ⟨some mc, docId, some 0.15⟩).results
        = filterByThreshold 0.15
            (query st.store (textToVector msg) (if mc = 0 then 5 else mc) true
              (docFilter docId))) ∧
    ((searchSimilarChunks st.store msg ⟨some mc, docId, some 0.05⟩).results
        = filterByThreshold 0.05
            (query st.store (textToVector msg) (if mc = 0 then 5 else mc) true
              (docFilter docId))) ∧
    ((searchSimilarChunks st.store msg ⟨some mc, docId, some 0.15⟩).results ≠ [] →
      chat st msg docId mc = .ok ⟨msg,
        generateContextualResponse msg
          (contextOf (searchSimilarChunks st.store msg ⟨some mc, docId, some 0.15⟩).results),
        (contextOf (searchSimilarChunks st.store msg
            ⟨some mc, docId, some 0.15⟩).results).map (fun chunk => ⟨chunk.source⟩),
        (searchSimilarChunks st.store msg ⟨some mc, docId, some 0.15⟩).results.length⟩) ∧
    ((searchSimilarChunks st.store msg ⟨some mc, docId, some 0.15⟩).results = [] →
      (searchSimilarChunks st.store msg ⟨some mc, docId, some 0.05⟩).results ≠ [] →
      chat st msg docId mc = .ok ⟨msg,
        generateContextualResponse msg
          (contextOf (searchSimilarChunks st.store msg ⟨some mc, docId, some 0.05⟩).results),
        (contextOf (searchSimilarChunks st.store msg
            ⟨some mc, docId, some 0.05⟩).results).map (fun chunk => ⟨chunk.source⟩),
        (searchSimilarChunks st.store msg ⟨some mc, docId, some 0.05⟩).results.length⟩) ∧
    ((searchSimilarChunks st.store msg ⟨some mc, docId, some 0.15⟩).results = [] →
      (searchSimilarChunks st.store msg ⟨some mc, docId, some 0.05⟩).results = [] →
      chat st msg docId mc = .ok ⟨msg, noInfoAnswer, [], 0⟩) := by
  have hb := chat_branches st msg docId mc hmsg hcomp
  refine ⟨?_, ?_, hb.1, hb.2.1, hb.2.2⟩
  · unfold searchSimilarChunks
    simp only []
    rw [jsOrReal_some_ne (by norm_num : (0.15:ℝ) ≠ 0)]
    rfl
  · unfold searchSimilarChunks
    simp only []
    rw [jsOrReal_some_ne (by norm_num : (0.05:ℝ) ≠ 0)]
    rfl

/-- Witness for C2 (amended): with a completed Job but an empty vector store,
both searches come up empty and the chat answer is the fixed
no-relevant-information response. -/
theorem chat_threshold_retry_witness :
    chat ⟨[("d", completedJobW)], [], ⟨[]⟩⟩ "hello" none 8
      = .ok ⟨"hello", noInfoAnswer, [], 0⟩ :=
  (chat_threshold_retry ⟨[("d", completedJobW)], [], ⟨[]⟩⟩ "hello" none 8
    (by decide) (by decide)).2.2.2.2
    (searchSimilarChunks_empty_store "hello" _)
    (searchSimilarChunks_empty_store "hello" _)

/-- C2 counterexample: with maxChunks = 0 the claim prescribes topK = 0, under
which even the relaxed 0.05 search yields no matches, forcing the fixed
no-information answer with relevantChunks 0; the code instead defaults topK
to 5 through the JS || and answers with relevantChunks 1. -/
theorem chat_topk_counterexample :
    filterByThreshold 0.15
        (query ceStateOne.store (textToVector "a") 0 true (docFilter none)) = [] ∧
    filterByThreshold 0.05
        (query ceStateOne.store (textToVector "a") 0 true (docFilter none)) = [] ∧
    (match chat ceStateOne "a" none 0 with
      | .ok r => r.relevantChunks
      | .badRequest => 0) = 1 := by
  have hq0 : query ceStateOne.store (textToVector "a") 0 true (docFilter none) = [] := by
    unfold query
    simp
  refine ⟨by rw [hq0]; rfl, by rw [hq0]; rfl, ?_⟩
  have hs15 := search_ceStateOne 0 0.15 (by norm_num) (by norm_num) (by decide)
  have hb := chat_branches ceStateOne "a" none 0 (by decide) (by decide)
  rw [hb.1 (by rw [hs15]; simp)]
  simp only []
  rw [hs15]
  rfl

/-! ## C3: sources and relevant chunk count -/

/-- C3 (amended): for every accepted chat request that retrieves a non-empty
set of chunks, the sources field lists the originating fileName of each
retrieved chunk, one entry per chunk in retrieval order (duplicates are kept,
no similarity scores appear), and relevantChunks equals the number of
retrieved chunks used. -/
theorem chat_sources_per_chunk (st : AppState) (msg : String) (docId : Option String)
    (mc : Nat) (hmsg : jsTrim msg ≠ "")
    (hcomp : ((st.docs.map Prod.snd).filter
      (fun doc => doc.status == "completed")).length ≠ 0) :
    ((searchSimilarChunks st.store msg ⟨some mc, docId, some 0.15⟩).results ≠ [] →
      chat st msg docId mc = .ok ⟨msg,
        generateContextualResponse msg
          (contextOf (searchSimilarChunks st.store msg ⟨some mc, docId, some 0.15⟩).results),
        (searchSimilarChunks st.store msg ⟨some mc, docId, some 0.15⟩).results.map
          (fun r => ⟨(metaOf r).fileName⟩),
        (searchSimilarChunks st.store msg ⟨some mc, docId, some 0.15⟩).results.length⟩) ∧
    ((searchSimilarChunks st.store msg ⟨some mc, docId, some 0.15⟩).results = [] →
      (searchSimilarChunks st.store msg ⟨some mc, docId, some 0.05⟩).results ≠ [] →
      chat st msg docId mc = .ok ⟨msg,
        generateContextualResponse msg
          (contextOf (searchSimilarChunks st.store msg ⟨some mc, docId, some 0.05⟩).results),
        (searchSimilarChunks st.store msg ⟨some mc, docId, some 0.05⟩).results.map
          (fun r => ⟨(metaOf r).fileName⟩),
        (searchSimilarChunks st.store msg ⟨some mc, docId, some 0.05⟩).results.length⟩) := by
  have hb := chat_branches st msg docId mc hmsg hcomp
  constructor
  · intro h1
    rw [hb.1 h1, contextOf_sources]
  · intro h1 h2
    rw [hb.2.1 h1 h2, contextOf_sources]

/-- Witness for C3 (amended): one retrieved chunk from f.txt gives sources
with exactly that fileName and relevantChunks 1. -/
theorem chat_sources_per_chunk_witness :
    (match chat ceStateOne "a" none 8 with
      | .ok r => (r.sources, r.relevantChunks)
      | .badRequest => ([], 0)) = ([⟨"f.txt"⟩], 1) := by
  have hs := search_ceStateOne 8 0.15 (by norm_num) (by norm_num) (by decide)
  have h := (chat_sources_per_chunk ceStateOne "a" none 8 (by decide) (by decide)).1
    (by rw [hs]; simp)
  rw [h]
  simp only []
  rw [hs]
  simp [metaOf, metaW]

/-- C3 counterexample: two retrieved chunks of the same document give the
fileName twice in sources, so the sources list is not deduplicated as
claimed. -/
theorem chat_sources_counterexample :
    (match chat ceStateTwo "a" none 8 with
      | .ok r => r.sources
      | .badRequest => []) = [⟨"f.txt"⟩, ⟨"f.txt"⟩] ∧
    ¬ ((match chat ceStateTwo "a" none 8 with
        | .ok r => r.sources
        | .badRequest => []).map SourceRef.source).Nodup := by
  have hs := search_ceStateTwo 8 0.15 (by norm_num) (by norm_num) (by decide)
  have hb := chat_branches ceStateTwo "a" none 8 (by decide) (by decide)
  have h := hb.1 (by rw [hs]; simp)
  have hfirst : (match chat ceStateTwo "a" none 8 with
      | .ok r => r.sources
      | .badRequest => []) = [⟨"f.txt"⟩, ⟨"f.txt"⟩] := by
    rw [h]
    simp only []
    rw [hs]
    simp [contextOf, metaOf, metaW, metaW2]
  refine ⟨hfirst, ?_⟩
  rw [hfirst]
  decide

end DocuChat
